import Mathlib

/-!
# Pelion collision / accelerometer example: verification development

A shallow embedding of `src/main.cpp`: the globals of the program become the
fields of `State`, every function of the file becomes a state transformer, and
the libraries the program is linked against (C library, mbed OS drivers, the
event queue, the device-management client) appear as small explicit models or
as inputs chosen by the environment.
-/

namespace Pelion

/-! ## Machine integers and the C library -/

/-- Largest value of the 32-bit `int` of the Cortex-M targets. -/
def INT_MAX : Int := 2147483647

/-- Smallest value of the 32-bit `int` of the Cortex-M targets. -/
def INT_MIN : Int := -2147483648

/-- The value a 32-bit `int` object holds after the mathematical value `v` is
stored in it (two-complement wrap-around, what the target's `adds` produces). -/
def wrapInt (v : Int) : Int := (v + 2147483648) % 4294967296 - 2147483648

/-- Saturation of `strtol` on a target whose `long` has 32 bits. -/
def clampInt (v : Int) : Int := max INT_MIN (min INT_MAX v)

/-- White space as `isspace` of the C locale sees it. -/
def isspace (c : Char) : Bool :=
  c = ' ' || c = '\t' || c = '\n' || c = '\x0b' || c = '\x0c' || c = '\r'

/-- Decimal digit as `isdigit` sees it. -/
def isdigit (c : Char) : Bool := decide (48 ≤ c.toNat) && decide (c.toNat ≤ 57)

/-- Value of the longest run of decimal digits at the head of the text,
continuing from the value accumulated so far. -/
def digitsValue : List Char → Int → Int
  | [], v => v
  | c :: cs, v => if isdigit c then digitsValue cs (v * 10 + ((c.toNat : Int) - 48)) else v

/-- Embeds `atoi` of the C library (`(int) strtol(s, NULL, 10)`): leading white space
is skipped, one optional sign is read, then the longest run of digits; text
that holds no number gives 0. -/
def atoi (s : List Char) : Int :=
  match s.dropWhile isspace with
  | '-' :: cs => clampInt (- digitsValue cs 0)
  | '+' :: cs => clampInt (digitsValue cs 0)
  | cs => clampInt (digitsValue cs 0)

/-- Embeds `m2m::String::c_str()`: the characters up to the first NUL. -/
def c_str (s : String) : List Char := s.toList.takeWhile (fun c => c != '\x00')

/-! ## Values, resources, console lines -/

/-- A `float`, carried around as its bit pattern: the program only moves
floats from the sensor to the resources and the console. -/
structure FloatVal where
  bits : Nat
  deriving DecidableEq, Repr

/-- One result of `acc.read_Tilt(&x, &y, &z)`. -/
structure Tilt where
  x : FloatVal
  y : FloatVal
  z : FloatVal
  deriving DecidableEq, Repr

/-- What `set_value` was last called with: the `int` or the `float` overload. -/
inductive Value where
  | int (v : Int)
  | float (v : FloatVal)
  deriving DecidableEq, Repr

/-- The constants of `M2MMethod`. -/
inductive Method where
  | GET
  | PUT
  | POST
  | DELETE
  deriving DecidableEq, Repr

/-- The zero-argument functions of the program that get bound to the
interrupt and to the ticker. -/
inductive Fn0 where
  | update_sensors
  | hit_collision
  deriving DecidableEq, Repr

/-- The one function of the program with the signature of a PUT handler. -/
inductive PutFn where
  | put_callback
  deriving DecidableEq, Repr

/-- The one function of the program with the signature of a POST handler. -/
inductive PostFn where
  | post_callback
  deriving DecidableEq, Repr

/-- The one function of the program with the signature of a notification handler. -/
inductive NotifFn where
  | collision_callback
  deriving DecidableEq, Repr

/-- The one function of the program with the signature of a registration handler. -/
inductive RegFn where
  | registered
  deriving DecidableEq, Repr

/-- How a callable is handed to a library: `direct f` is the plain function
(`put_callback`, `&registered`), called in the context of whoever invokes it;
`event f` is `eventQueue.event(f)`, whose invocation only posts `f` to the
queue. -/
inductive Callback (F : Type) where
  | direct (f : F)
  | event (f : F)
  deriving DecidableEq, Repr

/-- An `MbedCloudClientResource` as this program configures it. -/
structure Resource where
  path : String
  name : String
  value : Option Value
  methodMask : List Method
  isObservable : Bool
  notificationCallback : Option (Callback NotifFn)
  putCallback : Option (Callback PutFn)
  postCallback : Option (Callback PostFn)
  deriving DecidableEq, Repr

/-- The six resource pointers declared at file scope. -/
inductive ResId where
  | button_res
  | led_res
  | post_res
  | acc_x_res
  | acc_y_res
  | acc_z_res
  deriving DecidableEq, Repr

/-- The `printf` calls of the program, one constructor per format string,
carrying the arguments. -/
inductive Line where
  | starting
  | button_pushed
  | format_failed (storage_status : Int)
  | hold_button_hint
  | connecting
  | unable_to_connect (net_status : Int)
  | connected (ip : String)
  | initializing
  | init_failed (client_status : Int)
  | initialized
  | tilt_x (x : FloatVal)
  | tilt_y (y : FloatVal)
  | tilt_z (z : FloatVal)
  | collision_hit_times (hits : Int)
  | put_received (newValue : List Char)
  | post_received (size : Nat)
  | post_byte (b : Nat)
  | post_newline
  | collision_notification (status : Int)
  | registered_to (endpoint_name : String)
  deriving DecidableEq, Repr

/-- Calls the program makes into its environment, in the order made. -/
inductive Effect where
  | printf (l : Line)
  | acc_init
  | button_read
  | storage_format
  | get_default_instance
  | net_connect (result : Int)
  | get_ip_address
  | client_init
  | create_resource (path : String) (name : String)
  | on_registered
  | register_and_connect
  | read_Tilt
  | led_write (v : Int)
  | dispatch_forever
  deriving DecidableEq, Repr

/-! ## The event queue -/

/-- A unit of deferred work: a function of the program bound to its arguments. -/
inductive Task where
  | update_sensors
  | hit_collision
  | put_callback (newValue : String)
  | post_callback (buffer : List Nat)
  | collision_callback (status : Int)
  | registered (endpoint_name : String)
  deriving DecidableEq, Repr

/-- A posted task together with the sequence number it got when posted. -/
structure Event where
  seq : Nat
  task : Task
  deriving DecidableEq, Repr

/-- Modelled from the spec: the `EventQueue` class of mbed OS, which is not
part of this repository. Section 4.3 gives it as a FIFO to which `post`
appends and from which the dispatcher pops the earliest-posted event; section
3 gives every event a monotonically assigned sequence number; section 4.1
says a post to a full queue is dropped. -/
structure EventQueue where
  capacity : Nat
  events : List Event
  next_seq : Nat
  deriving DecidableEq, Repr

/-- Modelled from the spec: `post` of the event queue (section 4.3, 4.1):
appended at the tail with the next sequence number, or dropped when full. -/
def EventQueue.post (q : EventQueue) (t : Task) : EventQueue :=
  if q.events.length < q.capacity then
    { q with events := q.events ++ [⟨q.next_seq, t⟩], next_seq := q.next_seq + 1 }
  else q

/-! ## Program state -/

/-- The objects of file scope of `main.cpp`, the devices behind them, and the
two objects local to `main` that live on while the dispatcher runs (the client
and the ticker). -/
structure State where
  hits : Int
  led : Int
  button_res : Option Resource
  led_res : Option Resource
  post_res : Option Resource
  acc_x_res : Option Resource
  acc_y_res : Option Resource
  acc_z_res : Option Resource
  eventQueue : EventQueue
  collision_pull_up : Bool
  collision_fall : Option (Callback Fn0)
  timer : Option (Callback Fn0 × Nat)
  client_on_registered : Option (Callback RegFn)
  reads : Nat
  log : List Effect
  deriving DecidableEq, Repr

/-- State after the static initialisers: `int hits = 0`, `DigitalOut led(LED1)`
(which drives the pin low), six null pointers, an empty queue. -/
def State.init (capacity : Nat) : State :=
  { hits := 0, led := 0,
    button_res := none, led_res := none, post_res := none,
    acc_x_res := none, acc_y_res := none, acc_z_res := none,
    eventQueue := ⟨capacity, [], 0⟩,
    collision_pull_up := false, collision_fall := none, timer := none,
    client_on_registered := none, reads := 0, log := [] }

/-- Appends one call to the log. -/
def State.emit (s : State) (e : Effect) : State := { s with log := s.log ++ [e] }

/-- One `printf`. -/
def State.printf (s : State) (l : Line) : State := s.emit (.printf l)

/-- Reads one of the six resource pointers. -/
def State.res (s : State) : ResId → Option Resource
  | .button_res => s.button_res
  | .led_res => s.led_res
  | .post_res => s.post_res
  | .acc_x_res => s.acc_x_res
  | .acc_y_res => s.acc_y_res
  | .acc_z_res => s.acc_z_res

/-- Assigns one of the six resource pointers. -/
def State.setRes (s : State) (id : ResId) (r : Option Resource) : State :=
  match id with
  | .button_res => { s with button_res := r }
  | .led_res => { s with led_res := r }
  | .post_res => { s with post_res := r }
  | .acc_x_res => { s with acc_x_res := r }
  | .acc_y_res => { s with acc_y_res := r }
  | .acc_z_res => { s with acc_z_res := r }

/-- Embeds `MbedCloudClientResource::set_value`: overwrites the value held. -/
def Resource.set_value (r : Resource) (v : Value) : Resource := { r with value := some v }

/-- Embeds `p->set_value(v)` through one of the file-scope pointers; there is no
result when the pointer is still null. -/
def State.set_value (id : ResId) (v : Value) (s : State) : Option State :=
  (s.res id).map fun r => s.setRes id (some (r.set_value v))

/-- Embeds `DigitalOut::write` followed by what `DigitalOut::read` then returns: the
pin is high for every non-zero argument. -/
def DigitalOut_write (value : Int) : Int := if value = 0 then 0 else 1

/-- Runs statements in order, stopping without result at the first that has none. -/
def runStmts : List (State → Option State) → State → Option State
  | [], s => some s
  | f :: fs, s => (f s).bind (runStmts fs)

/-! ## The functions of `main.cpp` -/

/-- The statements of `update_sensors` after the sensor read, `t` being what
the read stored in the locals `x`, `y`, `z`. -/
def update_sensors_body (t : Tilt) : List (State → Option State) :=
  [ fun s => some (s.printf (.tilt_x t.x)),
    fun s => some (s.printf (.tilt_y t.y)),
    fun s => some (s.printf (.tilt_z t.z)),
    State.set_value .acc_x_res (.float t.x),
    State.set_value .acc_y_res (.float t.y),
    State.set_value .acc_z_res (.float t.z),
    fun s => some (s.printf (.collision_hit_times s.hits)),
    fun s => State.set_value .button_res (.int s.hits) s ]

/-- The call `acc.read_Tilt(&x, &y, &z)`: the sensor hands out its next reading. -/
def read_Tilt (s : State) : State := { s with reads := s.reads + 1, log := s.log ++ [.read_Tilt] }

/-- Embeds `update_sensors()`; `acc n` is what the sensor returns on its `n`-th read. -/
def update_sensors (acc : Nat → Tilt) (s : State) : Option State :=
  runStmts (update_sensors_body (acc s.reads)) (read_Tilt s)

/-- Embeds `put_callback(resource, newValue)`. -/
def put_callback (newValue : String) (s : State) : State :=
  let s := s.printf (.put_received (c_str newValue))
  { s with led := DigitalOut_write (atoi (c_str newValue)),
           log := s.log ++ [.led_write (atoi (c_str newValue))] }

/-- Embeds `post_callback(resource, buffer, size)` with `size` the length of `buffer`. -/
def post_callback (buffer : List Nat) (s : State) : State :=
  let s := s.printf (.post_received buffer.length)
  let s := buffer.foldl (fun s b => s.printf (.post_byte b)) s
  s.printf .post_newline

/-- Embeds `hit_collision()`: `hits++` on a 32-bit `int`. -/
def hit_collision (s : State) : State := { s with hits := wrapInt (s.hits + 1) }

/-- Embeds `collision_callback(resource, status)`. -/
def collision_callback (status : Int) (s : State) : State :=
  s.printf (.collision_notification status)

/-- Embeds `registered(endpoint)`. -/
def registered (endpoint_name : String) (s : State) : State :=
  s.printf (.registered_to endpoint_name)

/-- Embeds `client.create_resource(path, name)`: a fresh resource with nothing set. -/
def create_resource (path name : String) : Resource :=
  { path := path, name := name, value := none, methodMask := [], isObservable := false,
    notificationCallback := none, putCallback := none, postCallback := none }

/-- Embeds `MbedCloudClientResource::methods`. -/
def Resource.methods (r : Resource) (m : List Method) : Resource := { r with methodMask := m }

/-- Embeds `MbedCloudClientResource::observable`. -/
def Resource.observable (r : Resource) (b : Bool) : Resource := { r with isObservable := b }

/-- Embeds `MbedCloudClientResource::attach_notification_callback`. -/
def Resource.attach_notification_callback (r : Resource) (cb : Callback NotifFn) : Resource :=
  { r with notificationCallback := some cb }

/-- Embeds `MbedCloudClientResource::attach_put_callback`. -/
def Resource.attach_put_callback (r : Resource) (cb : Callback PutFn) : Resource :=
  { r with putCallback := some cb }

/-- Embeds `MbedCloudClientResource::attach_post_callback`. -/
def Resource.attach_post_callback (r : Resource) (cb : Callback PostFn) : Resource :=
  { r with postCallback := some cb }

/-- The statement `p = client.create_resource(path, name)` for one of the six pointers. -/
def State.create (id : ResId) (path name : String) (s : State) : State :=
  (s.emit (.create_resource path name)).setRes id (some (create_resource path name))

/-- A statement `p->f(...)` that reconfigures the resource behind one of the
six pointers; no result when the pointer is null. -/
def State.update (id : ResId) (f : Resource → Resource) (s : State) : Option State :=
  (s.res id).map fun r => s.setRes id (some (f r))

/-- What `main` is told by its environment. -/
structure Env where
  USE_BUTTON : Int
  MBED_CONF_APP_BUTTON_PRESSED_STATE : Int
  button_read : Int
  format_status : Int
  connect : List Int
  ip_address : String
  client_init : Int
  queue_capacity : Nat
  deriving DecidableEq, Repr

/-- Embeds `NSAPI_ERROR_OK`. -/
def NSAPI_ERROR_OK : Int := 0

/-- How far `main` gets: it returned a status, or it sits in
`eventQueue.dispatch_forever()`, or every `connect()` result supplied was an
error and it is still in the retry loop. -/
inductive Outcome where
  | returned (code : Int) (s : State)
  | dispatching (s : State)
  | connecting (s : State)
  deriving DecidableEq, Repr

/-- The `#if USE_BUTTON == 1` block of `main`. -/
def format_block (env : Env) (s : State) : State :=
  if env.USE_BUTTON = 1 then
    let s := s.emit .button_read
    if env.button_read = env.MBED_CONF_APP_BUTTON_PRESSED_STATE then
      let s := s.printf .button_pushed
      let s := s.emit .storage_format
      if env.format_status ≠ 0 then s.printf (.format_failed env.format_status) else s
    else s.printf .hold_button_hint
  else s

/-- The loop `while ((net_status = net->connect()) != NSAPI_ERROR_OK)`, fed
with the results of the successive `connect()` calls: the state on leaving the
loop, or the state reached when the supplied results run out. -/
def connect_loop : List Int → State → Except State State
  | [], s => .error s
  | net_status :: rest, s =>
    let s := s.emit (.net_connect net_status)
    if net_status ≠ NSAPI_ERROR_OK then
      connect_loop rest (s.printf (.unable_to_connect net_status))
    else .ok s

/-- Lines 172 to 218 of `main`, statement by statement: the six resources,
registration, the interrupt handler, the ticker, the dispatcher. -/
def setup_body : List (State → Option State) :=
  [ fun s => some (s.create .button_res "3200/0/5501" "collision_count"),
    State.set_value .button_res (.int 0),
    State.update .button_res (fun r => r.methods [.GET]),
    State.update .button_res (fun r => r.observable true),
    State.update .button_res (fun r => r.attach_notification_callback (.direct .collision_callback)),
    fun s => some (s.create .led_res "3201/0/5853" "led_state"),
    fun s => State.set_value .led_res (.int s.led) s,
    State.update .led_res (fun r => r.methods [.GET, .PUT]),
    State.update .led_res (fun r => r.attach_put_callback (.direct .put_callback)),
    fun s => some (s.create .post_res "3300/0/5605" "execute_function"),
    State.update .post_res (fun r => r.methods [.POST]),
    State.update .post_res (fun r => r.attach_post_callback (.direct .post_callback)),
    fun s => some (s.create .acc_x_res "3313/0/5702" "accelerometer_x"),
    State.set_value .acc_x_res (.int 0),
    State.update .acc_x_res (fun r => r.methods [.GET]),
    State.update .acc_x_res (fun r => r.observable true),
    fun s => some (s.create .acc_y_res "3313/0/5703" "accelerometer_y"),
    State.set_value .acc_y_res (.int 0),
    State.update .acc_y_res (fun r => r.methods [.GET]),
    State.update .acc_y_res (fun r => r.observable true),
    fun s => some (s.create .acc_z_res "3313/0/5704" "accelerometer_z"),
    State.set_value .acc_z_res (.int 0),
    State.update .acc_z_res (fun r => r.methods [.GET]),
    State.update .acc_z_res (fun r => r.observable true),
    fun s => some (s.printf .initialized),
    fun s => some { s.emit .on_registered with client_on_registered := some (.direct .registered) },
    fun s => some (s.emit .register_and_connect),
    fun s => some { s with collision_pull_up := true },
    fun s => some { s with collision_fall := some (.event .hit_collision) },
    fun s => some { s with timer := some (.event .update_sensors, 3000000) },
    fun s => some (s.emit .dispatch_forever) ]

/-- Embeds `main()`. A null pointer dereference would leave `main` without outcome. -/
def main (env : Env) : Option Outcome :=
  let s := (State.init env.queue_capacity).printf .starting
  let s := s.emit .acc_init
  let s := format_block env s
  let s := s.printf .connecting
  let s := s.emit .get_default_instance
  match connect_loop env.connect s with
  | .error s => some (.connecting s)
  | .ok s =>
    let s := s.emit .get_ip_address
    let s := s.printf (.connected env.ip_address)
    let s := s.printf .initializing
    let s := s.emit .client_init
    if env.client_init ≠ 0 then
      some (.returned (-1) (s.printf (.init_failed env.client_init)))
    else (runStmts setup_body s).map .dispatching

/-! ## The running system

Once `main` sits in `dispatch_forever`, the program reacts to its
environment: edges on the collision pin, ticks of the ticker, requests and
reports from the device-management client, and the dispatcher taking the next
event off the queue. -/

/-- What can happen while the dispatcher runs. `dispatch` is one turn of the
dispatcher: it takes the earliest event off the queue and runs it to
completion (and does nothing when the queue is empty). -/
inductive Input where
  | collision_fall
  | timer_tick
  | dispatch
  | put (newValue : String)
  | post (buffer : List Nat)
  | notification (status : Int)
  | registered (endpoint_name : String)
  deriving DecidableEq, Repr

/-- Runs a task: calls the function with the arguments bound to it. -/
def Task.run (acc : Nat → Tilt) : Task → State → Option State
  | .update_sensors, s => Pelion.update_sensors acc s
  | .hit_collision, s => some (Pelion.hit_collision s)
  | .put_callback newValue, s => some (Pelion.put_callback newValue s)
  | .post_callback buffer, s => some (Pelion.post_callback buffer s)
  | .collision_callback status, s => some (Pelion.collision_callback status s)
  | .registered endpoint_name, s => some (Pelion.registered endpoint_name s)

/-- The task a zero-argument function stands for. -/
def Fn0.task : Fn0 → Task
  | .update_sensors => .update_sensors
  | .hit_collision => .hit_collision

/-- Invokes a callback in the current context: a plain function runs at once,
an `eventQueue.event(...)` only posts its task. -/
def invoke {F : Type} (acc : Nat → Tilt) (cb : Callback F) (bound : F → Task) (s : State) :
    Option State :=
  match cb with
  | .direct f => (bound f).run acc s
  | .event f => some { s with eventQueue := s.eventQueue.post (bound f) }

/-- Invokes the callback held in a slot; an empty slot means nothing is called. -/
def invokeSlot {F : Type} (acc : Nat → Tilt) (slot : Option (Callback F)) (bound : F → Task)
    (s : State) : Option State :=
  match slot with
  | none => some s
  | some cb => invoke acc cb bound s

/-- Modelled from the spec: the dispatcher has taken the earliest event off
the queue (section 4.3), `rest` being the events behind it. -/
def State.popped (s : State) (rest : List Event) : State :=
  { s with eventQueue := { s.eventQueue with events := rest } }

/-- One reaction of the program. -/
def step (acc : Nat → Tilt) : Input → State → Option State
  | .collision_fall, s => invokeSlot acc s.collision_fall Fn0.task s
  | .timer_tick, s => invokeSlot acc (s.timer.map Prod.fst) Fn0.task s
  | .dispatch, s =>
    match s.eventQueue.events with
    | [] => some s
    | e :: rest => e.task.run acc (s.popped rest)
  | .put newValue, s =>
    invokeSlot acc (s.led_res.bind Resource.putCallback)
      (fun f => match f with | .put_callback => .put_callback newValue) s
  | .post buffer, s =>
    invokeSlot acc (s.post_res.bind Resource.postCallback)
      (fun f => match f with | .post_callback => .post_callback buffer) s
  | .notification status, s =>
    invokeSlot acc (s.button_res.bind Resource.notificationCallback)
      (fun f => match f with | .collision_callback => .collision_callback status) s
  | .registered endpoint_name, s =>
    invokeSlot acc s.client_on_registered
      (fun f => match f with | .registered => .registered endpoint_name) s

/-- The reactions to a sequence of inputs, in order. -/
def run (acc : Nat → Tilt) : List Input → State → Option State
  | [], s => some s
  | i :: rest, s => (step acc i s).bind (run acc rest)

/-- The event an input makes the dispatcher execute: the head of the queue
on a dispatcher turn, none otherwise. -/
def executes (i : Input) (s : State) : List Event :=
  match i with
  | .dispatch => s.eventQueue.events.head?.toList
  | _ => []

/-- The events the dispatcher executed during a run, in execution order. -/
def dispatched (acc : Nat → Tilt) : List Input → State → List Event
  | [], _ => []
  | i :: rest, s =>
    match step acc i s with
    | none => executes i s
    | some s1 => executes i s ++ dispatched acc rest s1

/-- The dispatcher runs until the queue it found is used up. -/
def drain (acc : Nat → Tilt) (s : State) : Option State :=
  run acc (List.replicate s.eventQueue.events.length .dispatch) s

/-- Whether an input tries to post an event. -/
def Input.posts : Input → Bool
  | .collision_fall => true
  | .timer_tick => true
  | _ => false

/-- No post of the run meets a full queue. -/
def neverFull (acc : Nat → Tilt) : List Input → State → Bool
  | [], _ => true
  | i :: rest, s =>
    (!i.posts || decide (s.eventQueue.events.length < s.eventQueue.capacity)) &&
      match step acc i s with
      | none => true
      | some s1 => neverFull acc rest s1

/-- Number of falling edges in a sequence of inputs. -/
def firings (sched : List Input) : Nat := sched.count .collision_fall

/-! ## Observations used to state the properties -/

/-- The state an outcome of `main` carries. -/
def Outcome.state : Outcome → State
  | .returned _ s => s
  | .dispatching s => s
  | .connecting s => s

/-- Value held by the resource behind a pointer, if the pointer is set and a
value was stored. -/
def State.valueOf (s : State) (id : ResId) : Option Value := (s.res id).bind Resource.value

/-- Value of the `collision_count` resource. -/
def State.collision_count (s : State) : Option Value := s.valueOf .button_res

/-- Values of `accelerometer_x`, `accelerometer_y`, `accelerometer_z`. -/
def State.accelerometer (s : State) : Option Value × Option Value × Option Value :=
  (s.valueOf .acc_x_res, s.valueOf .acc_y_res, s.valueOf .acc_z_res)

/-- The wiring `main` leaves behind: which callable sits in which slot, and
the resource pointers the handlers dereference are set. -/
def Wired (s : State) : Prop :=
  s.collision_fall = some (.event .hit_collision) ∧
  s.timer = some (.event .update_sensors, 3000000) ∧
  s.client_on_registered = some (.direct .registered) ∧
  s.button_res.bind Resource.notificationCallback = some (.direct .collision_callback) ∧
  s.led_res.bind Resource.putCallback = some (.direct .put_callback) ∧
  s.post_res.bind Resource.postCallback = some (.direct .post_callback) ∧
  s.acc_x_res.isSome = true ∧ s.acc_y_res.isSome = true ∧ s.acc_z_res.isSome = true

/-- The three accelerometer resources hold the values of one and the same
sensor read, or all three still hold the initial `0`. -/
def Coherent (acc : Nat → Tilt) (s : State) : Prop :=
  s.accelerometer = (some (.int 0), some (.int 0), some (.int 0)) ∨
  ∃ n, n < s.reads ∧
    s.accelerometer = (some (.float (acc n).x), some (.float (acc n).y), some (.float (acc n).z))

/-- Number of `hit_collision` events in a list of events. -/
def hitCount (l : List Event) : Nat := l.countP fun e => decide (e.task = .hit_collision)

/-- The events up to and including the last `update_sensors` event of a
list; empty when the list holds none. -/
def uptoLastSample (l : List Event) : List Event :=
  l.rdropWhile fun e => decide (e.task ≠ .update_sensors)

/-- What `main` hands to the dispatcher: the wiring, and every counter and
resource value at its initial value. -/
def Booted (s : State) : Prop :=
  Wired s ∧ s.hits = 0 ∧ s.led = 0 ∧ s.eventQueue.events = [] ∧ s.eventQueue.next_seq = 0 ∧
  s.reads = 0 ∧ s.collision_count = some (.int 0) ∧
  s.accelerometer = (some (.int 0), some (.int 0), some (.int 0))

/-- A function of the program that touches nothing but the LED and the console. -/
def Quiet (s s1 : State) : Prop := s1 = { s with led := s1.led, log := s1.log }

instance (s : State) : Decidable (Wired s) := by
  unfold Wired
  infer_instance

instance (s : State) : Decidable (Booted s) := by
  unfold Booted
  infer_instance

instance (s s1 : State) : Decidable (Quiet s s1) := by
  unfold Quiet
  infer_instance

instance (acc : Nat → Tilt) (s : State) : Decidable (Coherent acc s) := by
  unfold Coherent
  infer_instance

/-- A burst of `n` falling edges, each dispatched before the next arrives. -/
def burst (n : Nat) : List Input := (List.replicate n [Input.collision_fall, Input.dispatch]).flatten

/-- A sample environment: button support compiled in and the button pressed,
formatting fails with status 5, the first `connect()` fails, the client
initialises. -/
def demoEnv : Env :=
  { USE_BUTTON := 1, MBED_CONF_APP_BUTTON_PRESSED_STATE := 0, button_read := 0,
    format_status := 5, connect := [-3004, 0], ip_address := "10.0.0.2",
    client_init := 0, queue_capacity := 32 }

/-- A sample sensor: read number `n` returns the bit patterns `10 n + 1`,
`10 n + 2`, `10 n + 3`. -/
def demoAcc (n : Nat) : Tilt := ⟨⟨10 * n + 1⟩, ⟨10 * n + 2⟩, ⟨10 * n + 3⟩⟩

/-- The state in which `main demoEnv` enters the dispatcher. -/
def demoState : State :=
  match main demoEnv with
  | some (.dispatching s) => s
  | _ => State.init 0

/-- The state with further calls appended to its log. -/
def State.appendLog (s : State) (l : List Effect) : State := { s with log := s.log ++ l }

/-- The calls the button block of `main` makes. -/
def formatLog (env : Env) : List Effect := (format_block env (State.init 0)).log

/-- The state in which `main` leaves the retry loop and has called
`client.init()`, for a run of failed `connect()` calls followed by a success. -/
def connectedState (env : Env) (errs : List Int) : State :=
  { State.init env.queue_capacity with
    log := [.printf .starting, .acc_init] ++ (formatLog env ++
      ([.printf .connecting, .get_default_instance] ++
      ((errs.flatMap fun e => [Effect.net_connect e, Effect.printf (.unable_to_connect e)]) ++
      [.net_connect NSAPI_ERROR_OK, .get_ip_address, .printf (.connected env.ip_address),
       .printf .initializing, .client_init]))) }

/-- The state in which `main` sits in the retry loop after a run of failed
`connect()` calls. -/
def retryingState (env : Env) : State :=
  { State.init env.queue_capacity with
    log := [.printf .starting, .acc_init] ++ (formatLog env ++
      ([.printf .connecting, .get_default_instance] ++
      (env.connect.flatMap fun e =>
        [Effect.net_connect e, Effect.printf (.unable_to_connect e)]))) }

/-- The results of the `connect()` calls recorded in a log, in call order. -/
def connectCalls (log : List Effect) : List Int :=
  log.filterMap fun e =>
    match e with
    | .net_connect r => some r
    | _ => none

/-- Whether a logged call is a `create_resource`. -/
def Effect.isCreate : Effect → Bool
  | .create_resource _ _ => true
  | _ => false

/-- Applies a change to the log of the state an outcome carries. -/
def Outcome.mapLog (f : List Effect → List Effect) : Outcome → Outcome
  | .returned code s => .returned code { s with log := f s.log }
  | .dispatching s => .dispatching { s with log := f s.log }
  | .connecting s => .connecting { s with log := f s.log }

/-- The calls `main` makes from the first resource creation on. -/
def setupLog : List Effect :=
  [.create_resource "3200/0/5501" "collision_count",
   .create_resource "3201/0/5853" "led_state",
   .create_resource "3300/0/5605" "execute_function",
   .create_resource "3313/0/5702" "accelerometer_x",
   .create_resource "3313/0/5703" "accelerometer_y",
   .create_resource "3313/0/5704" "accelerometer_z",
   .printf .initialized, .on_registered, .register_and_connect, .dispatch_forever]

/-- The state of `demoState` after one falling edge on the collision pin. -/
def demoAfterEdge : State :=
  { demoState with eventQueue := demoState.eventQueue.post .hit_collision }

/-- A schedule that drives `hits` to `INT_MAX`, samples, and adds one more hit. -/
def overflowSchedule : List Input :=
  burst 2147483647 ++ [.timer_tick, .dispatch] ++ burst 1

/-- A schedule with two hits, a sample, and one more hit. -/
def demoSchedule : List Input :=
  [.collision_fall, .collision_fall, .dispatch, .dispatch, .timer_tick, .dispatch,
   .collision_fall, .dispatch]

/-- The state `demoState` is in after `demoSchedule`. -/
def demoFinal : State :=
  match run demoAcc demoSchedule demoState with
  | some s => s
  | none => demoState

/-- The sample environment with a client whose initialisation fails with status 7. -/
def demoEnvInitFails : Env := { demoEnv with client_init := 7 }

/-! ## Basic facts about the embedding -/

theorem update_sensors_spec (acc : Nat → Tilt) (s : State) (h : Wired s) :
    ∃ s1, update_sensors acc s = some s1 ∧ Wired s1 ∧ s1.hits = s.hits ∧ s1.led = s.led ∧
      s1.eventQueue = s.eventQueue ∧ s1.reads = s.reads + 1 ∧
      s1.collision_count = some (.int s.hits) ∧
      s1.accelerometer = (some (.float (acc s.reads).x), some (.float (acc s.reads).y),
        some (.float (acc s.reads).z)) ∧
      s1.log = s.log ++ [.read_Tilt, .printf (.tilt_x (acc s.reads).x),
        .printf (.tilt_y (acc s.reads).y), .printf (.tilt_z (acc s.reads).z),
        .printf (.collision_hit_times s.hits)] := by
  obtain ⟨hits, led, b, l, p, x, y, z, q, pu, cf, tm, reg, reads, log⟩ := s
  obtain ⟨h1, h2, h3, h4, h5, h6, h7, h8, h9⟩ := h
  cases b with
  | none => simp at h4
  | some rb =>
    cases x with
    | none => simp at h7
    | some rx =>
      cases y with
      | none => simp at h8
      | some ry =>
        cases z with
        | none => simp at h9
        | some rz =>
          simp only [] at h1 h2 h3 h4 h5 h6
          simp [update_sensors, read_Tilt, runStmts, update_sensors_body, State.set_value,
            State.res, State.setRes, State.printf, State.emit, Resource.set_value, Wired,
            State.collision_count, State.accelerometer, State.valueOf, h1, h2, h3, h5, h6]
          simpa using h4

theorem quiet_put_callback (v : String) (s : State) : Quiet s (put_callback v s) := by
  simp [Quiet, put_callback, State.printf, State.emit]

theorem post_bytes_quiet (buffer : List Nat) (s : State) :
    Quiet s (buffer.foldl (fun s b => s.printf (.post_byte b)) s) := by
  induction buffer generalizing s with
  | nil => simp [Quiet]
  | cons b bs ih =>
    have h := ih (s.printf (.post_byte b))
    simp only [List.foldl_cons]
    unfold Quiet at h ⊢
    rw [h]
    simp [State.printf, State.emit]

theorem quiet_post_callback (buffer : List Nat) (s : State) : Quiet s (post_callback buffer s) := by
  have h := post_bytes_quiet buffer (s.printf (.post_received buffer.length))
  unfold Quiet at h ⊢
  simp only [post_callback]
  rw [h]
  simp [State.printf, State.emit]

theorem quiet_collision_callback (status : Int) (s : State) :
    Quiet s (collision_callback status s) := by
  simp [Quiet, collision_callback, State.printf, State.emit]

theorem quiet_registered (name : String) (s : State) : Quiet s (registered name s) := by
  simp [Quiet, registered, State.printf, State.emit]

theorem Quiet.wired {s s1 : State} (h : Quiet s s1) (hw : Wired s) : Wired s1 := by
  unfold Quiet at h
  rw [h]
  exact hw

theorem wired_popped {s : State} (h : Wired s) (rest : List Event) : Wired (s.popped rest) := h

theorem wired_post {s : State} (h : Wired s) (t : Task) :
    Wired { s with eventQueue := s.eventQueue.post t } := h

theorem wired_hit {s : State} (h : Wired s) : Wired (hit_collision s) := h

theorem step_spec (acc : Nat → Tilt) (i : Input) (s : State) (h : Wired s) :
    ∃ s1, step acc i s = some s1 ∧ Wired s1 ∧
      ((i = .collision_fall ∧ s1 = { s with eventQueue := s.eventQueue.post .hit_collision }) ∨
       (i = .timer_tick ∧ s1 = { s with eventQueue := s.eventQueue.post .update_sensors }) ∨
       (i = .dispatch ∧ s.eventQueue.events = [] ∧ s1 = s) ∨
       (∃ e rest, i = .dispatch ∧ s.eventQueue.events = e :: rest ∧ e.task = .hit_collision ∧
          s1 = hit_collision (s.popped rest)) ∨
       (∃ e rest, i = .dispatch ∧ s.eventQueue.events = e :: rest ∧ e.task = .update_sensors ∧
          update_sensors acc (s.popped rest) = some s1) ∨
       (∃ e rest, i = .dispatch ∧ s.eventQueue.events = e :: rest ∧ e.task ≠ .hit_collision ∧
          e.task ≠ .update_sensors ∧ Quiet (s.popped rest) s1) ∨
       (i ≠ .collision_fall ∧ i ≠ .timer_tick ∧ i ≠ .dispatch ∧ Quiet s s1 ∧
          (∀ v, i = .put v → s1 = put_callback v s) ∧
          (∀ b, i = .post b → s1 = post_callback b s))) := by
  have hw := h
  obtain ⟨h1, h2, h3, h4, h5, h6, -, -, -⟩ := h
  cases i with
  | collision_fall =>
    exact ⟨_, by simp [step, invokeSlot, invoke, h1, Fn0.task], wired_post hw _, Or.inl ⟨rfl, rfl⟩⟩
  | timer_tick =>
    exact ⟨_, by simp [step, invokeSlot, invoke, h2, Fn0.task], wired_post hw _,
      Or.inr (Or.inl ⟨rfl, rfl⟩)⟩
  | dispatch =>
    cases hq : s.eventQueue.events with
    | nil => exact ⟨s, by simp [step, hq], hw, Or.inr (Or.inr (Or.inl ⟨rfl, rfl, rfl⟩))⟩
    | cons e rest =>
      have hp := wired_popped hw rest
      cases ht : e.task with
      | update_sensors =>
        obtain ⟨s1, hs1, hw1, -⟩ := update_sensors_spec acc (s.popped rest) hp
        exact ⟨s1, by simp [step, hq, ht, Task.run, hs1], hw1,
          Or.inr (Or.inr (Or.inr (Or.inr (Or.inl ⟨e, rest, rfl, rfl, ht, hs1⟩))))⟩
      | hit_collision =>
        exact ⟨_, by simp [step, hq, ht, Task.run], wired_hit hp,
          Or.inr (Or.inr (Or.inr (Or.inl ⟨e, rest, rfl, rfl, ht, rfl⟩)))⟩
      | put_callback v =>
        exact ⟨_, by simp [step, hq, ht, Task.run], (quiet_put_callback v _).wired hp,
          Or.inr (Or.inr (Or.inr (Or.inr (Or.inr (Or.inl
            ⟨e, rest, rfl, rfl, by simp [ht], by simp [ht], quiet_put_callback v _⟩)))))⟩
      | post_callback b =>
        exact ⟨_, by simp [step, hq, ht, Task.run], (quiet_post_callback b _).wired hp,
          Or.inr (Or.inr (Or.inr (Or.inr (Or.inr (Or.inl
            ⟨e, rest, rfl, rfl, by simp [ht], by simp [ht], quiet_post_callback b _⟩)))))⟩
      | collision_callback st =>
        exact ⟨_, by simp [step, hq, ht, Task.run], (quiet_collision_callback st _).wired hp,
          Or.inr (Or.inr (Or.inr (Or.inr (Or.inr (Or.inl
            ⟨e, rest, rfl, rfl, by simp [ht], by simp [ht], quiet_collision_callback st _⟩)))))⟩
      | registered n =>
        exact ⟨_, by simp [step, hq, ht, Task.run], (quiet_registered n _).wired hp,
          Or.inr (Or.inr (Or.inr (Or.inr (Or.inr (Or.inl
            ⟨e, rest, rfl, rfl, by simp [ht], by simp [ht], quiet_registered n _⟩)))))⟩
  | put v =>
    exact ⟨_, by simp [step, invokeSlot, invoke, h5, Task.run], (quiet_put_callback v _).wired hw,
      Or.inr (Or.inr (Or.inr (Or.inr (Or.inr (Or.inr
        ⟨by simp, by simp, by simp, quiet_put_callback v _, by simp, by simp⟩)))))⟩
  | post b =>
    exact ⟨_, by simp [step, invokeSlot, invoke, h6, Task.run], (quiet_post_callback b _).wired hw,
      Or.inr (Or.inr (Or.inr (Or.inr (Or.inr (Or.inr
        ⟨by simp, by simp, by simp, quiet_post_callback b _, by simp, by simp⟩)))))⟩
  | notification st =>
    exact ⟨_, by simp [step, invokeSlot, invoke, h4, Task.run],
      (quiet_collision_callback st _).wired hw,
      Or.inr (Or.inr (Or.inr (Or.inr (Or.inr (Or.inr
        ⟨by simp, by simp, by simp, quiet_collision_callback st _, by simp, by simp⟩)))))⟩
  | registered n =>
    exact ⟨_, by simp [step, invokeSlot, invoke, h3, Task.run], (quiet_registered n _).wired hw,
      Or.inr (Or.inr (Or.inr (Or.inr (Or.inr (Or.inr
        ⟨by simp, by simp, by simp, quiet_registered n _, by simp, by simp⟩)))))⟩

/-! ## Runs of the system -/

theorem run_append (acc : Nat → Tilt) (a b : List Input) (s : State) :
    run acc (a ++ b) s = (run acc a s).bind (run acc b) := by
  induction a generalizing s with
  | nil => simp [run]
  | cons i a ih =>
    simp only [List.cons_append, run]
    cases step acc i s with
    | none => simp
    | some s1 => simpa using ih s1

theorem run_snoc (acc : Nat → Tilt) (a : List Input) (i : Input) (s s1 : State)
    (h : run acc a s = some s1) : run acc (a ++ [i]) s = step acc i s1 := by
  simp [run_append, h, run]

theorem dispatched_single (acc : Nat → Tilt) (i : Input) (s : State) :
    dispatched acc [i] s = executes i s := by
  simp only [dispatched]
  cases step acc i s <;> simp

theorem dispatched_append (acc : Nat → Tilt) (a b : List Input) (s s1 : State)
    (h : run acc a s = some s1) :
    dispatched acc (a ++ b) s = dispatched acc a s ++ dispatched acc b s1 := by
  induction a generalizing s with
  | nil =>
    simp only [run, Option.some.injEq] at h
    simp [dispatched, h]
  | cons i a ih =>
    simp only [run] at h
    cases hs : step acc i s with
    | none => simp [hs] at h
    | some s2 =>
      rw [hs] at h
      simp only [Option.some_bind] at h
      have h2 := ih s2 h
      simp only [List.cons_append, dispatched, hs, List.append_assoc]
      rw [← h2]
      rfl

theorem dispatched_snoc (acc : Nat → Tilt) (a : List Input) (i : Input) (s s1 : State)
    (h : run acc a s = some s1) :
    dispatched acc (a ++ [i]) s = dispatched acc a s ++ executes i s1 := by
  rw [dispatched_append acc a [i] s s1 h, dispatched_single]

theorem run_wired (acc : Nat → Tilt) (sched : List Input) (s : State) (h : Wired s) :
    ∃ s1, run acc sched s = some s1 ∧ Wired s1 := by
  induction sched generalizing s with
  | nil => exact ⟨s, rfl, h⟩
  | cons i rest ih =>
    obtain ⟨s1, hs1, hw1, -⟩ := step_spec acc i s h
    obtain ⟨s2, hs2, hw2⟩ := ih s1 hw1
    exact ⟨s2, by simp [run, hs1, hs2], hw2⟩

theorem reach_induction (acc : Nat → Tilt) (s0 : State) (P : List Input → State → Prop)
    (hw : Wired s0) (h0 : P [] s0)
    (hstep : ∀ sched s i s1, run acc sched s0 = some s → Wired s → P sched s →
      step acc i s = some s1 → P (sched ++ [i]) s1) :
    ∀ sched, ∃ s, run acc sched s0 = some s ∧ Wired s ∧ P sched s := by
  intro sched
  induction sched using List.reverseRecOn with
  | nil => exact ⟨s0, rfl, hw, h0⟩
  | append_singleton sched i ih =>
    obtain ⟨s, hs, hws, hp⟩ := ih
    obtain ⟨s1, hs1, hw1, -⟩ := step_spec acc i s hws
    exact ⟨s1, by rw [run_snoc acc sched i s0 s hs, hs1], hw1, hstep sched s i s1 hs hws hp hs1⟩

theorem neverFull_append (acc : Nat → Tilt) (a b : List Input) (s s1 : State)
    (h : run acc a s = some s1) :
    neverFull acc (a ++ b) s = (neverFull acc a s && neverFull acc b s1) := by
  induction a generalizing s with
  | nil =>
    simp only [run, Option.some.injEq] at h
    simp [neverFull, h]
  | cons i a ih =>
    simp only [run] at h
    cases hs : step acc i s with
    | none => simp [hs] at h
    | some s2 =>
      rw [hs] at h
      simp only [Option.some_bind] at h
      have h2 := ih s2 h
      simp only [List.cons_append, neverFull, hs, Bool.and_assoc]
      rw [← h2]
      rfl

theorem firings_append (a b : List Input) : firings (a ++ b) = firings a + firings b := by
  simp [firings]

/-! ## Start-up: what `main` does before the dispatcher runs -/

theorem emit_eq (s : State) (e : Effect) : s.emit e = s.appendLog [e] := rfl

theorem printf_eq (s : State) (l : Line) : s.printf l = s.appendLog [.printf l] := rfl

theorem appendLog_appendLog (s : State) (a b : List Effect) :
    (s.appendLog a).appendLog b = s.appendLog (a ++ b) := by
  simp [State.appendLog]

theorem format_block_eq (env : Env) (s : State) :
    format_block env s = s.appendLog (formatLog env) := by
  unfold formatLog format_block
  split_ifs <;> simp [State.emit, State.printf, State.init, State.appendLog]

theorem connect_loop_ok (errs rest : List Int) (s : State) (h : ∀ e ∈ errs, e ≠ NSAPI_ERROR_OK) :
    connect_loop (errs ++ NSAPI_ERROR_OK :: rest) s =
      .ok (s.appendLog
        ((errs.flatMap fun e => [Effect.net_connect e, Effect.printf (.unable_to_connect e)]) ++
        [Effect.net_connect NSAPI_ERROR_OK])) := by
  induction errs generalizing s with
  | nil => simp [connect_loop, State.emit, State.appendLog]
  | cons e es ih =>
    have he : e ≠ NSAPI_ERROR_OK := h e (by simp)
    have hes : ∀ x ∈ es, x ≠ NSAPI_ERROR_OK := fun x hx => h x (by simp [hx])
    simp [connect_loop, he, ih _ hes, State.emit, State.printf, State.appendLog]

theorem connect_loop_error (errs : List Int) (s : State) (h : ∀ e ∈ errs, e ≠ NSAPI_ERROR_OK) :
    connect_loop errs s =
      .error (s.appendLog
        (errs.flatMap fun e => [Effect.net_connect e, Effect.printf (.unable_to_connect e)])) := by
  induction errs generalizing s with
  | nil => simp [connect_loop, State.appendLog]
  | cons e es ih =>
    have he : e ≠ NSAPI_ERROR_OK := h e (by simp)
    have hes : ∀ x ∈ es, x ≠ NSAPI_ERROR_OK := fun x hx => h x (by simp [hx])
    simp [connect_loop, he, ih _ hes, State.emit, State.printf, State.appendLog]

/-- Every list of `connect()` results is a run of errors followed either by
nothing or by a first success. -/
theorem connect_results_split (l : List Int) :
    (∀ e ∈ l, e ≠ NSAPI_ERROR_OK) ∨
    ∃ errs rest, l = errs ++ NSAPI_ERROR_OK :: rest ∧ ∀ e ∈ errs, e ≠ NSAPI_ERROR_OK := by
  induction l with
  | nil => left; simp
  | cons a l ih =>
    by_cases ha : a = NSAPI_ERROR_OK
    · right; exact ⟨[], l, by simp [ha], by simp⟩
    · rcases ih with h | ⟨errs, rest, h1, h2⟩
      · left
        intro e he
        rcases List.mem_cons.1 he with h3 | h3
        · rw [h3]; exact ha
        · exact h e h3
      · right
        refine ⟨a :: errs, rest, by simp [h1], ?_⟩
        intro e he
        rcases List.mem_cons.1 he with h3 | h3
        · rw [h3]; exact ha
        · exact h2 e h3

theorem setup_spec (s : State) :
    ∃ s1, runStmts setup_body s = some s1 ∧ Wired s1 ∧ s1.hits = s.hits ∧ s1.led = s.led ∧
      s1.eventQueue = s.eventQueue ∧ s1.reads = s.reads ∧
      s1.collision_count = some (.int 0) ∧
      s1.accelerometer = (some (.int 0), some (.int 0), some (.int 0)) ∧
      s1.valueOf .led_res = some (.int s.led) ∧
      s1.log = s.log ++
        [.create_resource "3200/0/5501" "collision_count",
         .create_resource "3201/0/5853" "led_state",
         .create_resource "3300/0/5605" "execute_function",
         .create_resource "3313/0/5702" "accelerometer_x",
         .create_resource "3313/0/5703" "accelerometer_y",
         .create_resource "3313/0/5704" "accelerometer_z",
         .printf .initialized, .on_registered, .register_and_connect, .dispatch_forever] := by
  simp [setup_body, runStmts, State.create, State.set_value, State.update, State.res,
    State.setRes, State.emit, State.printf, Resource.set_value, Resource.methods,
    Resource.observable, Resource.attach_notification_callback, Resource.attach_put_callback,
    Resource.attach_post_callback, create_resource, Wired, State.collision_count,
    State.accelerometer, State.valueOf]

theorem main_connected (env : Env) (errs rest : List Int)
    (hc : env.connect = errs ++ NSAPI_ERROR_OK :: rest) (h : ∀ e ∈ errs, e ≠ NSAPI_ERROR_OK) :
    main env =
      if env.client_init ≠ 0 then
        some (.returned (-1) ((connectedState env errs).printf (.init_failed env.client_init)))
      else (runStmts setup_body (connectedState env errs)).map .dispatching := by
  have key : ∀ s : State, connect_loop env.connect s = .ok (s.appendLog
      ((errs.flatMap fun e => [Effect.net_connect e, Effect.printf (.unable_to_connect e)]) ++
        [Effect.net_connect NSAPI_ERROR_OK])) := by
    intro s
    rw [hc]
    exact connect_loop_ok errs rest s h
  have hs : connectedState env errs = (State.init env.queue_capacity).appendLog
      ([.printf .starting, .acc_init] ++ (formatLog env ++
      ([.printf .connecting, .get_default_instance] ++
      ((errs.flatMap fun e => [Effect.net_connect e, Effect.printf (.unable_to_connect e)]) ++
      [.net_connect NSAPI_ERROR_OK, .get_ip_address, .printf (.connected env.ip_address),
       .printf .initializing, .client_init])))) := by
    simp [connectedState, State.appendLog, State.init]
  rw [hs]
  simp only [main, key, format_block_eq, emit_eq, printf_eq, appendLog_appendLog,
    List.append_assoc, List.cons_append, List.nil_append]

theorem main_connecting (env : Env) (h : ∀ e ∈ env.connect, e ≠ NSAPI_ERROR_OK) :
    main env = some (.connecting (retryingState env)) := by
  have hs : retryingState env = (State.init env.queue_capacity).appendLog
      ([.printf .starting, .acc_init] ++ (formatLog env ++
      ([.printf .connecting, .get_default_instance] ++
      (env.connect.flatMap fun e =>
        [Effect.net_connect e, Effect.printf (.unable_to_connect e)])))) := by
    simp [retryingState, State.appendLog, State.init]
  rw [hs]
  simp only [main, connect_loop_error env.connect _ h, format_block_eq, emit_eq, printf_eq,
    appendLog_appendLog, List.append_assoc, List.cons_append, List.nil_append]

theorem main_booted (env : Env) (s0 : State) (h : main env = some (.dispatching s0)) :
    Booted s0 ∧ s0.eventQueue.capacity = env.queue_capacity := by
  rcases connect_results_split env.connect with hall | ⟨errs, rest, hc, hne⟩
  · rw [main_connecting env hall] at h
    simp at h
  · rw [main_connected env errs rest hc hne] at h
    split_ifs at h with hi
    · simp at h
    obtain ⟨s1, hs1, hw, h1, h2, h3, h4, h5, h6, -⟩ := setup_spec (connectedState env errs)
    rw [hs1] at h
    simp only [Option.map_some', Option.some.injEq, Outcome.dispatching.injEq] at h
    subst h
    refine ⟨⟨hw, ?_, ?_, ?_, ?_, ?_, h5, h6⟩, ?_⟩
    · rw [h1]; rfl
    · rw [h2]; rfl
    · rw [h3]; rfl
    · rw [h3]; rfl
    · rw [h4]; rfl
    · rw [h3]; rfl

theorem formatLog_cases (env : Env) :
    formatLog env =
      if env.USE_BUTTON = 1 then
        if env.button_read = env.MBED_CONF_APP_BUTTON_PRESSED_STATE then
          [.button_read, .printf .button_pushed, .storage_format] ++
            (if env.format_status ≠ 0 then [.printf (.format_failed env.format_status)] else [])
        else [.button_read, .printf .hold_button_hint]
      else [] := by
  unfold formatLog format_block
  split_ifs <;> simp [State.emit, State.printf, State.init]

theorem connectCalls_append (a b : List Effect) :
    connectCalls (a ++ b) = connectCalls a ++ connectCalls b := by
  simp [connectCalls]

theorem connectCalls_formatLog (env : Env) : connectCalls (formatLog env) = [] := by
  rw [formatLog_cases]
  split_ifs <;> simp [connectCalls]

theorem connectCalls_retries (errs : List Int) :
    connectCalls (errs.flatMap fun e =>
      [Effect.net_connect e, Effect.printf (.unable_to_connect e)]) = errs := by
  induction errs with
  | nil => simp [connectCalls]
  | cons e es ih =>
    simp only [List.flatMap_cons, connectCalls_append, ih]
    simp [connectCalls]

theorem client_init_not_mem_formatLog (env : Env) : Effect.client_init ∉ formatLog env := by
  rw [formatLog_cases]
  split_ifs <;> simp

theorem client_init_not_mem_retries (errs : List Int) :
    Effect.client_init ∉ (errs.flatMap fun e =>
      [Effect.net_connect e, Effect.printf (.unable_to_connect e)]) := by
  simp

theorem setup_log_indep (s : State) :
    runStmts setup_body s =
      (runStmts setup_body { s with log := [] }).map fun t => { t with log := s.log ++ t.log } := by
  simp [setup_body, runStmts, State.create, State.set_value, State.update, State.res,
    State.setRes, State.emit, State.printf, Resource.set_value, Resource.methods,
    Resource.observable, Resource.attach_notification_callback, Resource.attach_put_callback,
    Resource.attach_post_callback, create_resource]

/-! ## Network connection (C4) -/

theorem connectedState_log (env : Env) (errs : List Int) :
    (connectedState env errs).log =
      ([.printf .starting, .acc_init] ++ formatLog env ++
        [.printf .connecting, .get_default_instance] ++
        (errs.flatMap fun e => [Effect.net_connect e, Effect.printf (.unable_to_connect e)])) ++
      [.net_connect NSAPI_ERROR_OK, .get_ip_address, .printf (.connected env.ip_address),
       .printf .initializing, .client_init] := by
  simp [connectedState]

theorem main_ok_outcome (env : Env) (errs rest : List Int)
    (hc : env.connect = errs ++ NSAPI_ERROR_OK :: rest) (h : ∀ e ∈ errs, e ≠ NSAPI_ERROR_OK) :
    ∃ out tail, main env = some out ∧ out.state.log = (connectedState env errs).log ++ tail ∧
      connectCalls tail = [] ∧
      (env.client_init ≠ 0 → out = .returned (-1)
        ((connectedState env errs).printf (.init_failed env.client_init)) ∧
        tail = [.printf (.init_failed env.client_init)]) ∧
      (env.client_init = 0 → tail = setupLog ∧ ∃ s, out = .dispatching s ∧
        runStmts setup_body (connectedState env errs) = some s) := by
  rw [main_connected env errs rest hc h]
  by_cases hi : env.client_init = 0
  · obtain ⟨s1, hs1, -, -, -, -, -, -, -, -, hlog⟩ := setup_spec (connectedState env errs)
    refine ⟨.dispatching s1, setupLog, by simp [hi, hs1], by simpa [Outcome.state, setupLog] using hlog,
      by simp [connectCalls, setupLog], fun h0 => absurd hi h0, fun _ => ⟨rfl, s1, rfl, hs1⟩⟩
  · refine ⟨_, [.printf (.init_failed env.client_init)], by simp [hi], ?_, by simp [connectCalls],
      fun _ => ⟨rfl, rfl⟩, fun h0 => absurd h0 hi⟩
    simp [Outcome.state, State.printf, State.emit]

/-- C4: the network connection is retried until it succeeds. For `k` failed
`connect()` calls followed by a success, `main` calls `connect()` exactly
`k + 1` times, the successful call being the last, and goes on to
`client.init()` right after it; when every result supplied is an error `main`
is still in the loop and has not called `client.init()`, however many results
there are; and whenever `client.init()` was called, the last `connect()` call
had returned `NSAPI_ERROR_OK`. -/
theorem connect_retried_until_success (env : Env) :
    (∀ errs rest, env.connect = errs ++ NSAPI_ERROR_OK :: rest →
      (∀ e ∈ errs, e ≠ NSAPI_ERROR_OK) →
      ∃ out, main env = some out ∧
        connectCalls out.state.log = errs ++ [NSAPI_ERROR_OK] ∧
        (connectCalls out.state.log).length = errs.length + 1 ∧
        ∃ pre post, out.state.log = pre ++
            [.net_connect NSAPI_ERROR_OK, .get_ip_address, .printf (.connected env.ip_address),
             .printf .initializing, .client_init] ++ post ∧
          connectCalls pre = errs ∧ Effect.client_init ∉ pre ∧ connectCalls post = []) ∧
    ((∀ e ∈ env.connect, e ≠ NSAPI_ERROR_OK) →
      ∃ s, main env = some (.connecting s) ∧ connectCalls s.log = env.connect ∧
        Effect.client_init ∉ s.log) ∧
    (∀ out, main env = some out → Effect.client_init ∈ out.state.log →
      (connectCalls out.state.log).getLast? = some NSAPI_ERROR_OK) := by
  have part1 : ∀ errs rest, env.connect = errs ++ NSAPI_ERROR_OK :: rest →
      (∀ e ∈ errs, e ≠ NSAPI_ERROR_OK) →
      ∃ out, main env = some out ∧
        connectCalls out.state.log = errs ++ [NSAPI_ERROR_OK] ∧
        (connectCalls out.state.log).length = errs.length + 1 ∧
        ∃ pre post, out.state.log = pre ++
            [.net_connect NSAPI_ERROR_OK, .get_ip_address, .printf (.connected env.ip_address),
             .printf .initializing, .client_init] ++ post ∧
          connectCalls pre = errs ∧ Effect.client_init ∉ pre ∧ connectCalls post = [] := by
    intro errs rest hc hne
    obtain ⟨out, tail, hm, hlog, htail, -, -⟩ := main_ok_outcome env errs rest hc hne
    have hpre : connectCalls ([.printf .starting, .acc_init] ++ formatLog env ++
        [.printf .connecting, .get_default_instance] ++
        (errs.flatMap fun e => [Effect.net_connect e, Effect.printf (.unable_to_connect e)]))
        = errs := by
      simp only [connectCalls_append, connectCalls_formatLog, connectCalls_retries]
      simp [connectCalls]
    have hcalls : connectCalls out.state.log = errs ++ [NSAPI_ERROR_OK] := by
      rw [hlog, connectedState_log, connectCalls_append, connectCalls_append, hpre, htail]
      simp [connectCalls]
    refine ⟨out, hm, hcalls, by simp [hcalls], _, tail, ?_, hpre, ?_, htail⟩
    · rw [hlog, connectedState_log]
    · have h1 := client_init_not_mem_formatLog env
      simp [h1]
  refine ⟨part1, ?_, ?_⟩
  · intro hall
    refine ⟨retryingState env, main_connecting env hall, ?_, ?_⟩
    · simp only [retryingState, connectCalls_append, connectCalls_formatLog, connectCalls_retries]
      simp [connectCalls]
    · have h1 := client_init_not_mem_formatLog env
      simp [retryingState, h1]
  · intro out hm hmem
    rcases connect_results_split env.connect with hall | ⟨errs, rest, hc, hne⟩
    · rw [main_connecting env hall] at hm
      simp only [Option.some.injEq] at hm
      subst hm
      have h1 := client_init_not_mem_formatLog env
      simp [Outcome.state, retryingState, h1] at hmem
    · obtain ⟨out1, hm1, hcalls, -⟩ := part1 errs rest hc hne
      rw [hm] at hm1
      simp only [Option.some.injEq] at hm1
      subst hm1
      rw [hcalls]
      simp

/-! ## Client initialisation and the two ways out of `main` (C3) -/

theorem formatLog_subset (env : Env) (e : Effect) (h : e ∈ formatLog env) :
    e ∈ [Effect.button_read, .printf .button_pushed, .storage_format,
      .printf (.format_failed env.format_status), .printf .hold_button_hint] := by
  rw [formatLog_cases] at h
  split_ifs at h <;> simp at h <;> simp only [List.mem_cons, List.mem_singleton] <;> tauto

theorem formatLog_kinds (env : Env) (e : Effect) (h : e ∈ formatLog env) :
    e.isCreate = false ∧ e ≠ .on_registered ∧ e ≠ .register_and_connect ∧
      e ≠ .dispatch_forever := by
  have h1 := formatLog_subset env e h
  simp only [List.mem_cons, List.mem_singleton, List.not_mem_nil, or_false] at h1
  rcases h1 with h1 | h1 | h1 | h1 | h1 <;> subst h1 <;> simp [Effect.isCreate]

theorem boot_log_kinds (env : Env) (errs : List Int) (e : Effect)
    (h : e ∈ (connectedState env errs).log) :
    e.isCreate = false ∧ e ≠ .on_registered ∧ e ≠ .register_and_connect ∧
      e ≠ .dispatch_forever := by
  rw [connectedState_log] at h
  simp only [List.mem_append] at h
  rcases h with (((h | h) | h) | h) | h
  · simp at h
    rcases h with h | h <;> subst h <;> simp [Effect.isCreate]
  · exact formatLog_kinds env e h
  · simp at h
    rcases h with h | h <;> subst h <;> simp [Effect.isCreate]
  · simp only [List.mem_flatMap] at h
    obtain ⟨r, -, h⟩ := h
    simp at h
    rcases h with h | h <;> subst h <;> simp [Effect.isCreate]
  · simp at h
    rcases h with h | h | h | h | h <;> subst h <;> simp [Effect.isCreate]

theorem setup_resources (s : State) :
    ∃ s1, runStmts setup_body s = some s1 ∧
      s1.button_res = some
        { path := "3200/0/5501", name := "collision_count", value := some (.int 0),
          methodMask := [.GET], isObservable := true,
          notificationCallback := some (.direct .collision_callback),
          putCallback := none, postCallback := none } ∧
      s1.led_res = some
        { path := "3201/0/5853", name := "led_state", value := some (.int s.led),
          methodMask := [.GET, .PUT], isObservable := false, notificationCallback := none,
          putCallback := some (.direct .put_callback), postCallback := none } ∧
      s1.post_res = some
        { path := "3300/0/5605", name := "execute_function", value := none,
          methodMask := [.POST], isObservable := false, notificationCallback := none,
          putCallback := none, postCallback := some (.direct .post_callback) } ∧
      s1.acc_x_res = some
        { path := "3313/0/5702", name := "accelerometer_x", value := some (.int 0),
          methodMask := [.GET], isObservable := true, notificationCallback := none,
          putCallback := none, postCallback := none } ∧
      s1.acc_y_res = some
        { path := "3313/0/5703", name := "accelerometer_y", value := some (.int 0),
          methodMask := [.GET], isObservable := true, notificationCallback := none,
          putCallback := none, postCallback := none } ∧
      s1.acc_z_res = some
        { path := "3313/0/5704", name := "accelerometer_z", value := some (.int 0),
          methodMask := [.GET], isObservable := true, notificationCallback := none,
          putCallback := none, postCallback := none } := by
  simp [setup_body, runStmts, State.create, State.set_value, State.update, State.res,
    State.setRes, State.emit, State.printf, Resource.set_value, Resource.methods,
    Resource.observable, Resource.attach_notification_callback, Resource.attach_put_callback,
    Resource.attach_post_callback, create_resource]

/-- C3: `main` returns -1 when `client.init()` returns a non-zero status, and
then no resource was created, no callback registered and the dispatcher never
started; when `client.init()` returns 0 `main` creates the six resources,
registers with the cloud and enters `dispatch_forever`, its last call; `main`
has no other return, and it always has an outcome. -/
theorem main_exit_paths (env : Env) :
    (NSAPI_ERROR_OK ∈ env.connect → env.client_init ≠ 0 →
      ∃ s, main env = some (.returned (-1) s) ∧
        (∀ id, s.res id = none) ∧ s.collision_fall = none ∧ s.timer = none ∧
        s.client_on_registered = none ∧ s.eventQueue = ⟨env.queue_capacity, [], 0⟩ ∧
        s.hits = 0 ∧ Effect.client_init ∈ s.log ∧ (∀ e ∈ s.log, e.isCreate = false) ∧
        Effect.on_registered ∉ s.log ∧ Effect.register_and_connect ∉ s.log ∧
        Effect.dispatch_forever ∉ s.log) ∧
    (NSAPI_ERROR_OK ∈ env.connect → env.client_init = 0 →
      ∃ s, main env = some (.dispatching s) ∧
        (s.res .button_res).map (fun r => (r.path, r.name)) =
          some ("3200/0/5501", "collision_count") ∧
        (s.res .led_res).map (fun r => (r.path, r.name)) = some ("3201/0/5853", "led_state") ∧
        (s.res .post_res).map (fun r => (r.path, r.name)) =
          some ("3300/0/5605", "execute_function") ∧
        (s.res .acc_x_res).map (fun r => (r.path, r.name)) =
          some ("3313/0/5702", "accelerometer_x") ∧
        (s.res .acc_y_res).map (fun r => (r.path, r.name)) =
          some ("3313/0/5703", "accelerometer_y") ∧
        (s.res .acc_z_res).map (fun r => (r.path, r.name)) =
          some ("3313/0/5704", "accelerometer_z") ∧
        s.log.filter Effect.isCreate = setupLog.take 6 ∧
        Effect.register_and_connect ∈ s.log ∧ s.log.getLast? = some .dispatch_forever) ∧
    (∀ code s, main env = some (.returned code s) → code = -1 ∧ env.client_init ≠ 0) ∧
    main env ≠ none := by
  have hsplit : NSAPI_ERROR_OK ∈ env.connect →
      ∃ errs rest, env.connect = errs ++ NSAPI_ERROR_OK :: rest ∧
        ∀ e ∈ errs, e ≠ NSAPI_ERROR_OK := by
    intro hok
    rcases connect_results_split env.connect with hall | h
    · exact absurd rfl (hall _ hok)
    · exact h
  refine ⟨?_, ?_, ?_, ?_⟩
  · intro hok hi
    obtain ⟨errs, rest, hc, hne⟩ := hsplit hok
    refine ⟨_, by rw [main_connected env errs rest hc hne, if_pos hi], ?_, rfl, rfl, rfl, rfl, rfl,
      ?_, ?_, ?_, ?_, ?_⟩
    · intro id; cases id <;> rfl
    · simp [State.printf, State.emit, connectedState_log]
    · intro e he
      simp only [State.printf, State.emit, List.mem_append, List.mem_singleton] at he
      rcases he with he | he
      · exact (boot_log_kinds env errs e he).1
      · subst he; rfl
    · intro he
      simp only [State.printf, State.emit, List.mem_append, List.mem_singleton] at he
      rcases he with he | he
      · exact (boot_log_kinds env errs _ he).2.1 rfl
      · simp at he
    · intro he
      simp only [State.printf, State.emit, List.mem_append, List.mem_singleton] at he
      rcases he with he | he
      · exact (boot_log_kinds env errs _ he).2.2.1 rfl
      · simp at he
    · intro he
      simp only [State.printf, State.emit, List.mem_append, List.mem_singleton] at he
      rcases he with he | he
      · exact (boot_log_kinds env errs _ he).2.2.2 rfl
      · simp at he
  · intro hok hi
    obtain ⟨errs, rest, hc, hne⟩ := hsplit hok
    obtain ⟨s1, hs1, hb, hl, hp, hx, hy, hz⟩ := setup_resources (connectedState env errs)
    obtain ⟨s2, hs2, -, -, -, -, -, -, -, -, hlog⟩ := setup_spec (connectedState env errs)
    rw [hs1] at hs2
    simp only [Option.some.injEq] at hs2
    subst hs2
    refine ⟨s1, by simp [main_connected env errs rest hc hne, hi, hs1], by simp [State.res, hb],
      by simp [State.res, hl], by simp [State.res, hp], by simp [State.res, hx],
      by simp [State.res, hy], by simp [State.res, hz], ?_, by simp [hlog], by simp [hlog]⟩
    rw [hlog, List.filter_append]
    have h0 : (connectedState env errs).log.filter Effect.isCreate = [] := by
      rw [List.filter_eq_nil_iff]
      intro e he
      simp [(boot_log_kinds env errs e he).1]
    rw [h0]
    simp [setupLog, Effect.isCreate]
  · intro code s hm
    rcases connect_results_split env.connect with hall | ⟨errs, rest, hc, hne⟩
    · rw [main_connecting env hall] at hm
      simp at hm
    · rw [main_connected env errs rest hc hne] at hm
      split_ifs at hm with hi
      · simp only [Option.some.injEq, Outcome.returned.injEq] at hm
        exact ⟨hm.1.symm, hi⟩
      · obtain ⟨s1, hs1, -⟩ := setup_spec (connectedState env errs)
        rw [hs1] at hm
        simp at hm
  · rcases connect_results_split env.connect with hall | ⟨errs, rest, hc, hne⟩
    · rw [main_connecting env hall]
      simp
    · obtain ⟨out, tail, hm, -⟩ := main_ok_outcome env errs rest hc hne
      rw [hm]
      simp

/-! ## Storage formatting (C5) -/

theorem formatLog_no_button (env : Env) : formatLog { env with USE_BUTTON := 0 } = [] := by
  rw [formatLog_cases]
  simp

theorem insert_format (env : Env) (rest : List Effect) :
    (fun l : List Effect => l.take 2 ++ formatLog env ++ l.drop 2)
      ([.printf .starting, .acc_init] ++ ([] ++ rest)) =
      [.printf .starting, .acc_init] ++ (formatLog env ++ rest) := by
  simp

theorem main_without_button (env : Env) :
    main env = (main { env with USE_BUTTON := 0 }).map
      (Outcome.mapLog fun l => l.take 2 ++ formatLog env ++ l.drop 2) := by
  rcases connect_results_split env.connect with hall | ⟨errs, rest, hc, hne⟩
  · rw [main_connecting env hall, main_connecting { env with USE_BUTTON := 0 } hall]
    simp only [Option.map_some', Option.some.injEq, Outcome.mapLog, Outcome.connecting.injEq]
    simp only [retryingState, formatLog_no_button]
    simp
  · rw [main_connected env errs rest hc hne,
      main_connected { env with USE_BUTTON := 0 } errs rest hc hne]
    have hbase : ({ connectedState env errs with log := [] } : State) =
        { connectedState { env with USE_BUTTON := 0 } errs with log := [] } := rfl
    split_ifs with hi
    · simp only [Option.map_some', Option.some.injEq, Outcome.mapLog, Outcome.returned.injEq,
        true_and]
      simp only [connectedState, formatLog_no_button, State.printf, State.emit]
      simp
    · rw [setup_log_indep (connectedState env errs),
        setup_log_indep (connectedState { env with USE_BUTTON := 0 } errs), ← hbase]
      cases runStmts setup_body { connectedState env errs with log := [] } with
      | none => simp
      | some t =>
        simp only [Option.map_some', Option.some.injEq, Outcome.mapLog, Outcome.dispatching.injEq]
        simp only [connectedState, formatLog_no_button]
        simp

theorem count_format_formatLog (env : Env) :
    (formatLog env).count .storage_format =
      if env.USE_BUTTON = 1 ∧ env.button_read = env.MBED_CONF_APP_BUTTON_PRESSED_STATE
      then 1 else 0 := by
  rw [formatLog_cases]
  split_ifs <;> simp_all

theorem count_format_retries (errs : List Int) :
    (errs.flatMap fun e =>
      [Effect.net_connect e, Effect.printf (.unable_to_connect e)]).count .storage_format = 0 := by
  apply List.count_eq_zero_of_not_mem
  simp

theorem count_format_main (env : Env) (out : Outcome) (h : main env = some out) :
    out.state.log.count .storage_format = (formatLog env).count .storage_format := by
  rcases connect_results_split env.connect with hall | ⟨errs, rest, hc, hne⟩
  · rw [main_connecting env hall] at h
    simp only [Option.some.injEq] at h
    subst h
    simp only [Outcome.state, retryingState, List.count_append, count_format_retries]
    simp
  · obtain ⟨out1, tail, hm, hlog, -, h1, h2⟩ := main_ok_outcome env errs rest hc hne
    rw [h] at hm
    simp only [Option.some.injEq] at hm
    subst hm
    have htail : tail.count .storage_format = 0 := by
      by_cases hi : env.client_init = 0
      · rw [(h2 hi).1]
        simp [setupLog]
      · rw [(h1 hi).2]
        simp
    rw [hlog, connectedState_log]
    simp only [List.count_append, count_format_retries, htail]
    simp

/-- C5: storage formatting is invoked only when button support is compiled in
and the button reads its pressed state at boot, and at most once; its status
changes nothing but one reported line: `main` runs exactly as it does without
the button block, the calls of the block being inserted after the first two
calls of the log, and the block is the button read, then either the hint, or
the announcement, the format call and a report line when the status is not
zero. -/
theorem format_only_on_button (env : Env) :
    (∀ out, main env = some out → Effect.storage_format ∈ out.state.log →
      env.USE_BUTTON = 1 ∧ env.button_read = env.MBED_CONF_APP_BUTTON_PRESSED_STATE) ∧
    (∀ out, main env = some out → out.state.log.count .storage_format ≤ 1) ∧
    main env = (main { env with USE_BUTTON := 0 }).map
      (Outcome.mapLog fun l => l.take 2 ++ formatLog env ++ l.drop 2) ∧
    (∀ status, (main { env with format_status := status }).map (Outcome.mapLog fun _ => []) =
      (main { env with USE_BUTTON := 0 }).map (Outcome.mapLog fun _ => [])) ∧
    formatLog env =
      (if env.USE_BUTTON = 1 then
        if env.button_read = env.MBED_CONF_APP_BUTTON_PRESSED_STATE then
          [.button_read, .printf .button_pushed, .storage_format] ++
            (if env.format_status ≠ 0 then [.printf (.format_failed env.format_status)] else [])
        else [.button_read, .printf .hold_button_hint]
      else []) := by
  refine ⟨?_, ?_, main_without_button env, ?_, formatLog_cases env⟩
  · intro out hm hmem
    have h1 := count_format_main env out hm
    rw [count_format_formatLog] at h1
    by_contra hcon
    rw [if_neg hcon] at h1
    exact (List.count_eq_zero.1 h1) hmem
  · intro out hm
    rw [count_format_main env out hm, count_format_formatLog]
    split_ifs <;> simp
  · intro status
    rw [main_without_button { env with format_status := status }]
    have h0 : main { env with format_status := status, USE_BUTTON := 0 } =
        main { env with USE_BUTTON := 0 } := by
      unfold main format_block
      simp
    rw [h0]
    cases main { env with USE_BUTTON := 0 } with
    | none => rfl
    | some out => cases out <;> rfl

/-! ## The PUT handler (C2) -/

theorem atoi_no_number (l : List Char)
    (h : ∀ c cs, l.dropWhile isspace = c :: cs → isdigit c = false ∧ c ≠ '+' ∧ c ≠ '-') :
    atoi l = 0 := by
  unfold atoi
  split
  · rename_i cs heq
    exact absurd rfl (h _ _ heq).2.2
  · rename_i cs heq
    exact absurd rfl (h _ _ heq).2.1
  · rename_i cs h1 h2
    cases hl : l.dropWhile isspace with
    | nil => simp [digitsValue, clampInt, INT_MIN, INT_MAX]
    | cons c cs =>
      have hd := (h c cs hl).1
      simp [digitsValue, hd, clampInt, INT_MIN, INT_MAX]

theorem reachable_wired (env : Env) (s0 : State) (acc : Nat → Tilt) (sched : List Input)
    (s : State) (hm : main env = some (.dispatching s0)) (hr : run acc sched s0 = some s) :
    Wired s := by
  obtain ⟨s1, hs1, hw⟩ := run_wired acc sched s0 (main_booted env s0 hm).1.1
  rw [hr] at hs1
  simp only [Option.some.injEq] at hs1
  rw [hs1]
  exact hw

/-- C2: `put_callback` prints the payload it was given and writes
`atoi(newValue)` to the LED, once, and changes nothing else; the payload "1"
is seen as "1" and leaves the LED output at 1; a payload that parses to 0, such
as text that does not start with a number, leaves it at 0; and a PUT that
arrives while the dispatcher runs calls `put_callback` exactly once. -/
theorem put_callback_sets_led (newValue : String) (s : State) :
    put_callback newValue s =
      { s with led := DigitalOut_write (atoi (c_str newValue)),
               log := s.log ++ [.printf (.put_received (c_str newValue)),
                 .led_write (atoi (c_str newValue))] } ∧
    (c_str "1" = ['1'] ∧ atoi (c_str "1") = 1 ∧ (put_callback "1" s).led = 1) ∧
    (atoi (c_str newValue) = 0 → (put_callback newValue s).led = 0) ∧
    (atoi (c_str newValue) ≠ 0 → (put_callback newValue s).led = 1) ∧
    ((∀ c cs, (c_str newValue).dropWhile isspace = c :: cs →
        isdigit c = false ∧ c ≠ '+' ∧ c ≠ '-') → (put_callback newValue s).led = 0) ∧
    (∀ env s0 acc sched s1, main env = some (.dispatching s0) → run acc sched s0 = some s1 →
      step acc (.put newValue) s1 = some (put_callback newValue s1)) := by
  refine ⟨?_, ⟨by decide, by decide, ?_⟩, ?_, ?_, ?_, ?_⟩
  · simp [put_callback, State.printf, State.emit]
  · have h : DigitalOut_write (atoi (c_str "1")) = 1 := by decide
    simpa [put_callback] using h
  · intro h
    simp [put_callback, h, DigitalOut_write]
  · intro h
    simp [put_callback, h, DigitalOut_write]
  · intro h
    simp [put_callback, atoi_no_number _ h, DigitalOut_write]
  · intro env s0 acc sched s1 hm hr
    have hw := reachable_wired env s0 acc sched s1 hm hr
    obtain ⟨s2, hs2, -, hshape⟩ := step_spec acc (.put newValue) s1 hw
    rcases hshape with h | h | h | ⟨_, _, h, _⟩ | ⟨_, _, h, _⟩ | ⟨_, _, h, _⟩ | ⟨-, -, -, -, h, -⟩
    · simp at h
    · simp at h
    · simp at h
    · simp at h
    · simp at h
    · simp at h
    · rw [hs2, h newValue rfl]

theorem demo_boot : main demoEnv = some (.dispatching demoState) := by decide

/-- Witness for C2 at the payload "abc" and the state in which `main` enters
the dispatcher. -/
theorem put_callback_sets_led_witness :
    (put_callback "abc" demoState).led = 0 ∧
      step demoAcc (.put "abc") demoState = some (put_callback "abc" demoState) :=
  ⟨(put_callback_sets_led "abc" demoState).2.2.1 (by decide),
   (put_callback_sets_led "abc" demoState).2.2.2.2.2 demoEnv demoState demoAcc [] demoState
     (by decide) (by decide)⟩

/-! ## Who writes `hits` (C6) -/

theorem update_sensors_hits (acc : Nat → Tilt) (s s1 : State)
    (h : update_sensors acc s = some s1) : s1.hits = s.hits ∧ s1.led = s.led := by
  obtain ⟨hits, led, b, l, p, x, y, z, q, pu, cf, tm, reg, reads, log⟩ := s
  cases x <;> cases y <;> cases z <;> cases b <;>
    simp [update_sensors, read_Tilt, runStmts, update_sensors_body, State.set_value,
      State.res, State.setRes, State.printf, State.emit, Resource.set_value] at h
  subst h
  exact ⟨rfl, rfl⟩

theorem Quiet.hits {s s1 : State} (h : Quiet s s1) : s1.hits = s.hits := by
  unfold Quiet at h
  rw [h]

theorem task_run_hits (acc : Nat → Tilt) (t : Task) (s s1 : State) (ht : t ≠ .hit_collision)
    (h : t.run acc s = some s1) : s1.hits = s.hits := by
  cases t with
  | update_sensors => exact (update_sensors_hits acc s s1 h).1
  | hit_collision => exact absurd rfl ht
  | put_callback v =>
    simp only [Task.run, Option.some.injEq] at h
    rw [← h]; exact (quiet_put_callback v s).hits
  | post_callback b =>
    simp only [Task.run, Option.some.injEq] at h
    rw [← h]; exact (quiet_post_callback b s).hits
  | collision_callback st =>
    simp only [Task.run, Option.some.injEq] at h
    rw [← h]; exact (quiet_collision_callback st s).hits
  | registered n =>
    simp only [Task.run, Option.some.injEq] at h
    rw [← h]; exact (quiet_registered n s).hits

/-- C6: `hits` is written only inside dispatched events. While the
dispatcher runs, the handler on the falling edge is the queue-wrapped
`hit_collision`; a falling edge only posts that one event (or is dropped when
the queue is full) and leaves `hits`, the LED and all six resources as they
were; `hits` starts at 0, no task other than `hit_collision` changes it, and a
reaction changes it only when the dispatcher runs a `hit_collision` event. -/
theorem hits_written_only_by_dispatched_events (env : Env) (s0 : State) (acc : Nat → Tilt)
    (sched : List Input) (s : State) (hm : main env = some (.dispatching s0))
    (hr : run acc sched s0 = some s) :
    s0.hits = 0 ∧
    s.collision_fall = some (.event .hit_collision) ∧
    step acc .collision_fall s = some { s with eventQueue := s.eventQueue.post .hit_collision } ∧
    (∀ s1, step acc .collision_fall s = some s1 →
      s1.hits = s.hits ∧ s1.led = s.led ∧ (∀ id, s1.res id = s.res id) ∧
      (s.eventQueue.events.length < s.eventQueue.capacity →
        s1.eventQueue.events = s.eventQueue.events ++ [⟨s.eventQueue.next_seq, .hit_collision⟩]) ∧
      (¬ s.eventQueue.events.length < s.eventQueue.capacity → s1.eventQueue = s.eventQueue)) ∧
    (∀ t s1 s2, t ≠ Task.hit_collision → t.run acc s1 = some s2 → s2.hits = s1.hits) ∧
    (∀ i s1, step acc i s = some s1 → s1.hits ≠ s.hits →
      i = .dispatch ∧ ∃ e rest, s.eventQueue.events = e :: rest ∧ e.task = .hit_collision ∧
        s1 = hit_collision (s.popped rest)) := by
  have hb := (main_booted env s0 hm).1
  have hw := reachable_wired env s0 acc sched s hm hr
  have hstep : step acc .collision_fall s =
      some { s with eventQueue := s.eventQueue.post .hit_collision } := by
    simp [step, invokeSlot, invoke, hw.1, Fn0.task]
  refine ⟨hb.2.1, hw.1, hstep, ?_, fun t s1 s2 => task_run_hits acc t s1 s2, ?_⟩
  · intro s1 h1
    rw [hstep] at h1
    simp only [Option.some.injEq] at h1
    subst h1
    refine ⟨rfl, rfl, fun id => by cases id <;> rfl, ?_, ?_⟩
    · intro hlt
      simp [EventQueue.post, hlt]
    · intro hge
      simp [EventQueue.post, hge]
  · intro i s1 h1 hne
    obtain ⟨s2, hs2, -, hshape⟩ := step_spec acc i s hw
    rw [h1] at hs2
    simp only [Option.some.injEq] at hs2
    subst hs2
    rcases hshape with ⟨-, h⟩ | ⟨-, h⟩ | ⟨-, -, h⟩ | ⟨e, rest, hi, hq, ht, h⟩ |
      ⟨e, rest, -, -, -, h⟩ | ⟨e, rest, -, -, -, -, h⟩ | ⟨-, -, -, h, -⟩
    · exact absurd (by rw [h]) hne
    · exact absurd (by rw [h]) hne
    · exact absurd (by rw [h]) hne
    · exact ⟨hi, e, rest, hq, ht, h⟩
    · exact absurd (update_sensors_hits acc _ _ h).1 hne
    · exact absurd h.hits hne
    · exact absurd h.hits hne

/-- Witness for C6: the state in which `main demoEnv` enters the dispatcher,
after one falling edge. -/
theorem hits_written_only_by_dispatched_events_witness :
    step demoAcc .collision_fall demoAfterEdge =
      some { demoAfterEdge with eventQueue := demoAfterEdge.eventQueue.post .hit_collision } :=
  (hits_written_only_by_dispatched_events demoEnv demoState demoAcc [.collision_fall]
    demoAfterEdge (by decide) (by decide)).2.2.1

/-! ## Dispatch order (C7) -/

theorem Quiet.queue {s s1 : State} (h : Quiet s s1) : s1.eventQueue = s.eventQueue := by
  unfold Quiet at h
  rw [h]

/-- What a reaction does to the queue: either it posts one task, or the
events it executes followed by the events left are the events found. -/
theorem step_queue (acc : Nat → Tilt) (i : Input) (s s1 : State) (hw : Wired s)
    (hstep : step acc i s = some s1) :
    (i.posts = true ∧ executes i s = [] ∧
      ∃ t, (t = Task.hit_collision ↔ i = .collision_fall) ∧
        (t = Task.update_sensors ↔ i = .timer_tick) ∧
        (t = .hit_collision ∨ t = .update_sensors) ∧
        s1.eventQueue = s.eventQueue.post t) ∨
    (i.posts = false ∧ executes i s ++ s1.eventQueue.events = s.eventQueue.events ∧
      s1.eventQueue.next_seq = s.eventQueue.next_seq ∧
      s1.eventQueue.capacity = s.eventQueue.capacity) := by
  obtain ⟨s2, hs2, -, hshape⟩ := step_spec acc i s hw
  rw [hstep] at hs2
  simp only [Option.some.injEq] at hs2
  subst hs2
  clear hstep
  rcases hshape with ⟨hi, h⟩ | ⟨hi, h⟩ | ⟨hi, hq, h⟩ | ⟨e, rest, hi, hq, ht, h⟩ |
    ⟨e, rest, hi, hq, ht, h⟩ | ⟨e, rest, hi, hq, -, -, h⟩ | ⟨h1, h2, h3, h, -⟩
  · subst hi
    exact Or.inl ⟨rfl, rfl, .hit_collision, by simp, by simp, Or.inl rfl, by rw [h]⟩
  · subst hi
    exact Or.inl ⟨rfl, rfl, .update_sensors, by simp, by simp, Or.inr rfl, by rw [h]⟩
  · subst hi
    exact Or.inr ⟨rfl, by simp [executes, hq, h], by rw [h], by rw [h]⟩
  · subst hi
    exact Or.inr ⟨rfl, by simp [executes, hq, h, hit_collision, State.popped],
      by simp [h, hit_collision, State.popped], by simp [h, hit_collision, State.popped]⟩
  · subst hi
    obtain ⟨s2, hs2, -, -, -, hq2, -⟩ := update_sensors_spec acc (s.popped rest) hw
    rw [h] at hs2
    simp only [Option.some.injEq] at hs2
    subst hs2
    exact Or.inr ⟨rfl, by simp [executes, hq, hq2, State.popped], by simp [hq2, State.popped],
      by simp [hq2, State.popped]⟩
  · subst hi
    exact Or.inr ⟨rfl, by simp [executes, hq, h.queue, State.popped],
      by simp [h.queue, State.popped], by simp [h.queue, State.popped]⟩
  · have hp : i.posts = false := by cases i <;> simp_all [Input.posts]
    have he : executes i s = [] := by cases i <;> simp_all [executes]
    exact Or.inr ⟨hp, by simp [he, h.queue], by rw [h.queue], by rw [h.queue]⟩

theorem fifo_invariant (acc : Nat → Tilt) (s0 : State) (hb : Booted s0) (sched : List Input) :
    ∃ s, run acc sched s0 = some s ∧ Wired s ∧
      (List.Pairwise (fun a b : Event => a.seq < b.seq)
          (dispatched acc sched s0 ++ s.eventQueue.events) ∧
        ∀ e ∈ dispatched acc sched s0 ++ s.eventQueue.events, e.seq < s.eventQueue.next_seq) := by
  apply reach_induction acc s0
    (fun sched s => List.Pairwise (fun a b : Event => a.seq < b.seq)
          (dispatched acc sched s0 ++ s.eventQueue.events) ∧
        ∀ e ∈ dispatched acc sched s0 ++ s.eventQueue.events, e.seq < s.eventQueue.next_seq)
    hb.1
  · simp [dispatched, hb.2.2.2.1]
  · intro sched s i s1 hr hw ⟨hp, hlt⟩ hs
    rw [dispatched_snoc acc sched i s0 s hr]
    rcases step_queue acc i s s1 hw hs with ⟨-, he, t, -, -, -, hq⟩ | ⟨-, he, hn, -⟩
    · rw [he, List.append_nil, hq]
      unfold EventQueue.post
      split_ifs
      · simp only []
        rw [← List.append_assoc]
        refine ⟨List.pairwise_append.2 ⟨hp, by simp, ?_⟩, ?_⟩
        · intro a ha b hb1
          simp only [List.mem_singleton] at hb1
          subst hb1
          exact hlt a ha
        · intro e he1
          rcases List.mem_append.1 he1 with h1 | h1
          · exact Nat.lt_succ_of_lt (hlt e h1)
          · simp only [List.mem_singleton] at h1
            subst h1
            exact Nat.lt_succ_self _
      · exact ⟨hp, hlt⟩
    · rw [List.append_assoc, he, hn]
      exact ⟨hp, hlt⟩

/-- C7: FIFO dispatch. While the dispatcher runs, every accepted post gets a
sequence number larger than that of every earlier post; the events the
dispatcher has executed, in execution order, followed by the events still
queued, are in strictly increasing order of sequence number. So of two events
the dispatcher executes the one posted first strictly before the other, and
every executed event was posted before every event still waiting. -/
theorem dispatch_is_fifo (env : Env) (s0 : State) (acc : Nat → Tilt) (sched : List Input)
    (s : State) (hm : main env = some (.dispatching s0)) (hr : run acc sched s0 = some s) :
    List.Pairwise (fun a b : Event => a.seq < b.seq)
      (dispatched acc sched s0 ++ s.eventQueue.events) ∧
    List.Pairwise (fun a b : Event => a.seq < b.seq) (dispatched acc sched s0) ∧
    (∀ a ∈ dispatched acc sched s0, ∀ b ∈ s.eventQueue.events, a.seq < b.seq) ∧
    (∀ e ∈ dispatched acc sched s0 ++ s.eventQueue.events, e.seq < s.eventQueue.next_seq) ∧
    (∀ t, s.eventQueue.events.length < s.eventQueue.capacity →
      (s.eventQueue.post t).events = s.eventQueue.events ++ [⟨s.eventQueue.next_seq, t⟩] ∧
      (s.eventQueue.post t).next_seq = s.eventQueue.next_seq + 1) := by
  obtain ⟨s1, hs1, -, hp, hlt⟩ := fifo_invariant acc s0 (main_booted env s0 hm).1 sched
  rw [hr] at hs1
  simp only [Option.some.injEq] at hs1
  subst hs1
  refine ⟨hp, (List.pairwise_append.1 hp).1, (List.pairwise_append.1 hp).2.2, hlt, ?_⟩
  intro t hlen
  simp [EventQueue.post, hlen]

/-! ## The counter and its published snapshot (C1, C10) -/

theorem wrapInt_add (a b : Int) : wrapInt (wrapInt a + b) = wrapInt (a + b) := by
  unfold wrapInt
  omega

theorem wrapInt_of_lt (n : Nat) (h : n < 2147483648) : wrapInt n = n := by
  unfold wrapInt
  omega

theorem Quiet.values {s s1 : State} (h : Quiet s s1) :
    s1.collision_count = s.collision_count ∧ s1.accelerometer = s.accelerometer ∧
      s1.reads = s.reads := by
  unfold Quiet at h
  rw [h]
  exact ⟨rfl, rfl, rfl⟩

/-- What a reaction does to the counter, the published values and the sensor:
nothing unless the dispatcher executes an event; a `hit_collision` event adds
one to `hits`; an `update_sensors` event reads the sensor once and publishes
that reading and the current `hits`. -/
theorem step_counter (acc : Nat → Tilt) (i : Input) (s s1 : State) (hw : Wired s)
    (hstep : step acc i s = some s1) :
    (executes i s = [] ∧ s1.hits = s.hits ∧ s1.collision_count = s.collision_count ∧
      s1.accelerometer = s.accelerometer ∧ s1.reads = s.reads) ∨
    (∃ e, executes i s = [e] ∧ e.task = .hit_collision ∧ s1.hits = wrapInt (s.hits + 1) ∧
      s1.collision_count = s.collision_count ∧ s1.accelerometer = s.accelerometer ∧
      s1.reads = s.reads) ∨
    (∃ e, executes i s = [e] ∧ e.task = .update_sensors ∧ s1.hits = s.hits ∧
      s1.collision_count = some (.int s.hits) ∧
      s1.accelerometer = (some (.float (acc s.reads).x), some (.float (acc s.reads).y),
        some (.float (acc s.reads).z)) ∧
      s1.reads = s.reads + 1) ∨
    (∃ e, executes i s = [e] ∧ e.task ≠ .hit_collision ∧ e.task ≠ .update_sensors ∧
      s1.hits = s.hits ∧ s1.collision_count = s.collision_count ∧
      s1.accelerometer = s.accelerometer ∧ s1.reads = s.reads) := by
  obtain ⟨s2, hs2, -, hshape⟩ := step_spec acc i s hw
  rw [hstep] at hs2
  simp only [Option.some.injEq] at hs2
  subst hs2
  clear hstep
  rcases hshape with ⟨hi, h⟩ | ⟨hi, h⟩ | ⟨hi, hq, h⟩ | ⟨e, rest, hi, hq, ht, h⟩ |
    ⟨e, rest, hi, hq, ht, h⟩ | ⟨e, rest, hi, hq, ht1, ht2, h⟩ | ⟨h1, h2, h3, h, -⟩
  · subst hi
    rw [h]
    exact Or.inl ⟨rfl, rfl, rfl, rfl, rfl⟩
  · subst hi
    rw [h]
    exact Or.inl ⟨rfl, rfl, rfl, rfl, rfl⟩
  · subst hi
    rw [h]
    exact Or.inl ⟨by simp [executes, hq], rfl, rfl, rfl, rfl⟩
  · subst hi
    rw [h]
    exact Or.inr (Or.inl ⟨e, by simp [executes, hq], ht, rfl, rfl, rfl, rfl⟩)
  · subst hi
    obtain ⟨s2, hs2, -, hh, -, -, hr, hc, ha, -⟩ := update_sensors_spec acc (s.popped rest) hw
    rw [h] at hs2
    simp only [Option.some.injEq] at hs2
    subst hs2
    exact Or.inr (Or.inr (Or.inl ⟨e, by simp [executes, hq], ht, hh, hc, ha, hr⟩))
  · subst hi
    obtain ⟨hc, ha, hr⟩ := h.values
    exact Or.inr (Or.inr (Or.inr ⟨e, by simp [executes, hq], ht1, ht2, h.hits, hc, ha, hr⟩))
  · have he : executes i s = [] := by cases i <;> simp_all [executes]
    obtain ⟨hc, ha, hr⟩ := h.values
    exact Or.inl ⟨he, h.hits, hc, ha, hr⟩

theorem hitCount_append (a b : List Event) : hitCount (a ++ b) = hitCount a + hitCount b := by
  simp [hitCount]

theorem uptoLastSample_snoc_other (l : List Event) (e : Event) (h : e.task ≠ .update_sensors) :
    uptoLastSample (l ++ [e]) = uptoLastSample l := by
  unfold uptoLastSample
  rw [List.rdropWhile_concat_pos]
  simpa using h

theorem uptoLastSample_snoc_sample (l : List Event) (e : Event) (h : e.task = .update_sensors) :
    uptoLastSample (l ++ [e]) = l ++ [e] := by
  unfold uptoLastSample
  rw [List.rdropWhile_concat_neg]
  simpa using h

/-- The counter and the published count, read off the events executed so far. -/
theorem counter_invariant (acc : Nat → Tilt) (s0 : State) (hb : Booted s0)
    (sched : List Input) :
    ∃ s, run acc sched s0 = some s ∧ Wired s ∧
      (s.hits = wrapInt (hitCount (dispatched acc sched s0)) ∧
        s.collision_count =
          some (.int (wrapInt (hitCount (uptoLastSample (dispatched acc sched s0)))))) := by
  apply reach_induction acc s0
    (fun sched s => s.hits = wrapInt (hitCount (dispatched acc sched s0)) ∧
        s.collision_count =
          some (.int (wrapInt (hitCount (uptoLastSample (dispatched acc sched s0))))))
    hb.1
  · have h0 : (0 : Int) = wrapInt 0 := by unfold wrapInt; omega
    refine ⟨?_, ?_⟩
    · rw [hb.2.1]
      simpa [dispatched, hitCount] using h0
    · rw [hb.2.2.2.2.2.2.1]
      simpa [dispatched, hitCount, uptoLastSample] using h0
  · intro sched s i s1 hr hw ⟨hh, hc⟩ hs
    rw [dispatched_snoc acc sched i s0 s hr]
    rcases step_counter acc i s s1 hw hs with ⟨he, h1, h2, -⟩ | ⟨e, he, ht, h1, h2, -⟩ |
      ⟨e, he, ht, h1, h2, -⟩ | ⟨e, he, ht1, ht2, h1, h2, -⟩
    · rw [he, List.append_nil, h1, h2]
      exact ⟨hh, hc⟩
    · rw [he, h1, h2, uptoLastSample_snoc_other _ e (by simp [ht]), hitCount_append, hh,
        wrapInt_add]
      refine ⟨?_, hc⟩
      simp [hitCount, ht]
    · rw [he, h1, h2, uptoLastSample_snoc_sample _ e ht, hitCount_append, hh]
      simp [hitCount, ht]
    · rw [he, h1, h2, uptoLastSample_snoc_other _ e ht2, hitCount_append]
      refine ⟨?_, hc⟩
      simpa [hitCount, ht1] using hh

theorem firings_snoc (sched : List Input) (i : Input) :
    firings (sched ++ [i]) = firings sched + if i = .collision_fall then 1 else 0 := by
  unfold firings
  rw [List.count_append]
  by_cases h : i = .collision_fall
  · simp [h]
  · have h1 : ¬ ((i == Input.collision_fall) = true) := by simpa using h
    simp [h, List.count_cons, h1]

theorem neverFull_single (acc : Nat → Tilt) (i : Input) (s : State) :
    neverFull acc [i] s =
      (!i.posts || decide (s.eventQueue.events.length < s.eventQueue.capacity)) := by
  unfold neverFull
  cases step acc i s <;> simp [neverFull]

/-- While no post is dropped, every falling edge is either executed already
or still waiting in the queue. -/
theorem pending_invariant (acc : Nat → Tilt) (s0 : State) (hb : Booted s0)
    (sched : List Input) :
    ∃ s, run acc sched s0 = some s ∧ Wired s ∧
      (neverFull acc sched s0 = true →
        hitCount (dispatched acc sched s0) + hitCount s.eventQueue.events = firings sched) := by
  apply reach_induction acc s0
    (fun sched s => neverFull acc sched s0 = true →
        hitCount (dispatched acc sched s0) + hitCount s.eventQueue.events = firings sched)
    hb.1
  · intro _
    simp [dispatched, hitCount, hb.2.2.2.1, firings]
  · intro sched s i s1 hr hw hp hs hnf
    rw [neverFull_append acc sched [i] s0 s hr, Bool.and_eq_true, neverFull_single] at hnf
    have hp1 := hp hnf.1
    rw [dispatched_snoc acc sched i s0 s hr, firings_snoc, hitCount_append]
    rcases step_queue acc i s s1 hw hs with ⟨hposts, he, t, ht1, ht2, ht, hq⟩ | ⟨hnp, he, -, -⟩
    · have hroom : s.eventQueue.events.length < s.eventQueue.capacity := by
        simpa [hposts] using hnf.2
      rw [he, hq]
      simp only [EventQueue.post, hroom, if_true, hitCount_append]
      rcases ht with ht | ht
      · have hi := ht1.1 ht
        subst ht
        simp only [hi, if_true]
        have : hitCount [(⟨s.eventQueue.next_seq, Task.hit_collision⟩ : Event)] = 1 := by
          simp [hitCount]
        rw [this]
        simp only [hitCount, List.countP_nil] at hp1 ⊢
        omega
      · have hi := ht2.1 ht
        subst ht
        simp only [hi]
        have : hitCount [(⟨s.eventQueue.next_seq, Task.update_sensors⟩ : Event)] = 0 := by
          simp [hitCount]
        rw [this]
        simp only [hitCount, List.countP_nil] at hp1 ⊢
        simp only [reduceCtorEq, if_false]
        omega
    · have hi : i ≠ .collision_fall := by
        intro hi
        subst hi
        simp [Input.posts] at hnp
      rw [← he, hitCount_append] at hp1
      simp only [hi, if_false]
      omega

theorem step_dispatch_length (acc : Nat → Tilt) (s s1 : State) (hw : Wired s)
    (h : step acc .dispatch s = some s1) :
    s1.eventQueue.events.length = s.eventQueue.events.length - 1 := by
  rcases step_queue acc .dispatch s s1 hw h with ⟨hp, -⟩ | ⟨-, he, -, -⟩
  · simp [Input.posts] at hp
  · cases hq : s.eventQueue.events with
    | nil =>
      simp [executes, hq] at he
      simp [he]
    | cons e rest =>
      simp [executes, hq] at he
      simp [he]

theorem run_dispatches (acc : Nat → Tilt) (n : Nat) (s : State) (hw : Wired s)
    (hn : s.eventQueue.events.length ≤ n) :
    ∃ s1, run acc (List.replicate n .dispatch) s = some s1 ∧ Wired s1 ∧
      s1.eventQueue.events = [] := by
  induction n generalizing s with
  | zero =>
    exact ⟨s, rfl, hw, List.eq_nil_of_length_eq_zero (Nat.le_zero.1 hn)⟩
  | succ n ih =>
    obtain ⟨s1, hs1, hw1, -⟩ := step_spec acc .dispatch s hw
    have hlen := step_dispatch_length acc s s1 hw hs1
    obtain ⟨s2, hs2, hw2, he2⟩ := ih s1 hw1 (by omega)
    exact ⟨s2, by simp [List.replicate_succ, run, hs1, hs2], hw2, he2⟩

theorem neverFull_dispatches (acc : Nat → Tilt) (n : Nat) (s : State) :
    neverFull acc (List.replicate n .dispatch) s = true := by
  induction n generalizing s with
  | zero => rfl
  | succ n ih =>
    simp only [List.replicate_succ, neverFull, Input.posts]
    cases step acc .dispatch s with
    | none => simp
    | some s1 => simp [ih s1]

theorem firings_dispatches (n : Nat) : firings (List.replicate n .dispatch) = 0 := by
  unfold firings
  apply List.count_eq_zero_of_not_mem
  intro h
  have := List.eq_of_mem_replicate h
  simp at this

/-- After any inputs that drop no post, a drain leaves the queue empty and
`hits` at the number of falling edges, reduced to the range of `int`. -/
theorem counter_drained (acc : Nat → Tilt) (s0 : State) (hb : Booted s0) (sched : List Input)
    (hnf : neverFull acc sched s0 = true) :
    ∃ s1 s2, run acc sched s0 = some s1 ∧ drain acc s1 = some s2 ∧
      s2.eventQueue.events = [] ∧ s2.hits = wrapInt (firings sched) := by
  obtain ⟨s1, hs1, hw1⟩ := run_wired acc sched s0 hb.1
  obtain ⟨s2, hs2, -, he2⟩ := run_dispatches acc s1.eventQueue.events.length s1 hw1 le_rfl
  have hrun : run acc (sched ++ List.replicate s1.eventQueue.events.length .dispatch) s0
      = some s2 := by
    rw [run_append, hs1]
    exact hs2
  obtain ⟨s3, hs3, -, hh, -⟩ := counter_invariant acc s0 hb
    (sched ++ List.replicate s1.eventQueue.events.length .dispatch)
  obtain ⟨s4, hs4, -, hp⟩ := pending_invariant acc s0 hb
    (sched ++ List.replicate s1.eventQueue.events.length .dispatch)
  rw [hrun] at hs3 hs4
  simp only [Option.some.injEq] at hs3 hs4
  subst hs3
  subst hs4
  have hnf2 : neverFull acc (sched ++ List.replicate s1.eventQueue.events.length .dispatch) s0
      = true := by
    rw [neverFull_append acc sched _ s0 s1 hs1, hnf, neverFull_dispatches]
    rfl
  have hcount := hp hnf2
  rw [he2, firings_append, firings_dispatches] at hcount
  simp only [hitCount, List.countP_nil, Nat.add_zero] at hcount
  refine ⟨s1, s2, hs1, hs2, he2, ?_⟩
  rw [hh]
  simp only [hitCount, hcount]

theorem burst_succ (n : Nat) : burst (n + 1) = .collision_fall :: .dispatch :: burst n := by
  simp [burst, List.replicate_succ]

theorem wrapInt_idem (a : Int) : wrapInt (wrapInt a) = wrapInt a := by
  unfold wrapInt
  omega

/-- A burst of `n` falling edges, each dispatched at once, from a state with
an empty queue that has room for one event. -/
theorem burst_spec (acc : Nat → Tilt) (n : Nat) (s : State) (hw : Wired s)
    (he : s.eventQueue.events = []) (hcap : 0 < s.eventQueue.capacity)
    (hr : s.hits = wrapInt s.hits) :
    ∃ s1, run acc (burst n) s = some s1 ∧ Wired s1 ∧ s1.eventQueue.events = [] ∧
      s1.eventQueue.capacity = s.eventQueue.capacity ∧ s1.hits = wrapInt (s.hits + n) ∧
      s1.collision_count = s.collision_count ∧ neverFull acc (burst n) s = true ∧
      firings (burst n) = n := by
  induction n generalizing s with
  | zero =>
    refine ⟨s, rfl, hw, he, rfl, by simpa using hr, rfl, rfl, rfl⟩
  | succ n ih =>
    have h1 : step acc .collision_fall s =
        some { s with eventQueue := s.eventQueue.post .hit_collision } := by
      simp [step, invokeSlot, invoke, hw.1, Fn0.task]
    have hq : (s.eventQueue.post .hit_collision).events =
        [⟨s.eventQueue.next_seq, .hit_collision⟩] := by
      simp [EventQueue.post, he, hcap]
    have hc : (s.eventQueue.post .hit_collision).capacity = s.eventQueue.capacity := by
      simp [EventQueue.post, he, hcap]
    have h2 : step acc .dispatch { s with eventQueue := s.eventQueue.post .hit_collision } =
        some (hit_collision
          (State.popped { s with eventQueue := s.eventQueue.post .hit_collision } [])) := by
      simp [step, hq, Task.run]
    obtain ⟨s1, hs1, hw1, he1, hc1, hh1, hcc1, hnf1, hf1⟩ :=
      ih (hit_collision (State.popped { s with eventQueue := s.eventQueue.post .hit_collision } []))
        hw rfl (by simpa [hit_collision, State.popped, hc] using hcap)
        (by simp [hit_collision, State.popped, wrapInt_idem])
    refine ⟨s1, ?_, hw1, he1, ?_, ?_, ?_, ?_, ?_⟩
    · rw [burst_succ]
      simp only [run, h1, h2, Option.some_bind]
      exact hs1
    · rw [hc1]
      simpa [hit_collision, State.popped] using hc
    · rw [hh1]
      simp only [hit_collision, State.popped, wrapInt_add]
      congr 1
      push_cast
      ring
    · rw [hcc1]
      rfl
    · rw [burst_succ]
      simp only [neverFull, h1, h2, Input.posts, he, List.length_nil, hcap, decide_True,
        Bool.not_true, Bool.false_or, Bool.not_false, Bool.true_or, Bool.true_and]
      exact hnf1
    · rw [burst_succ]
      simp only [firings] at hf1 ⊢
      simp [List.count_cons, hf1]

theorem three_edges (acc : Nat → Tilt) (s0 : State) (hb : Booted s0)
    (hcap : 3 ≤ s0.eventQueue.capacity) :
    ∃ s1, run acc [.collision_fall, .collision_fall, .collision_fall] s0 = some s1 ∧
      s1.hits = 0 ∧
      s1.eventQueue.events = [⟨0, .hit_collision⟩, ⟨1, .hit_collision⟩, ⟨2, .hit_collision⟩] ∧
      neverFull acc [.collision_fall, .collision_fall, .collision_fall] s0 = true := by
  obtain ⟨hw, hh, -, he, hn, -⟩ := hb
  have h1 : 0 < s0.eventQueue.capacity := by omega
  have h2 : 1 < s0.eventQueue.capacity := by omega
  have h3 : 2 < s0.eventQueue.capacity := by omega
  refine ⟨{ s0 with eventQueue :=
      ((s0.eventQueue.post .hit_collision).post .hit_collision).post .hit_collision },
    by simp [run, step, invokeSlot, invoke, hw.1, Fn0.task], hh, ?_, ?_⟩
  · simp [EventQueue.post, he, hn, h1, h2, h3]
  · simp [neverFull, step, invokeSlot, invoke, hw.1, Fn0.task, EventQueue.post, he, hn, h1, h2, h3,
      Input.posts]

/-- C1, as the code has it: `hits` starts at 0, a dispatched `hit_collision`
adds exactly 1 to it as long as it is below `INT_MAX` (and wraps to `INT_MIN`
there), `update_sensors` leaves it unchanged; after any inputs of which no post
met a full queue, once the dispatcher has drained the queue `hits` is the
number of falling edges reduced to the range of a 32-bit `int`, hence equal to
that number whenever it is below 2^31; three falling edges before the
dispatcher runs give `hits == 3` after the drain when the queue holds three
events. -/
theorem hits_counts_firings (env : Env) (s0 : State) (acc : Nat → Tilt) (sched : List Input)
    (hm : main env = some (.dispatching s0)) (hnf : neverFull acc sched s0 = true) :
    s0.hits = 0 ∧
    (∀ s, (hit_collision s).hits = wrapInt (s.hits + 1)) ∧
    (∀ s, INT_MIN ≤ s.hits → s.hits < INT_MAX → (hit_collision s).hits = s.hits + 1) ∧
    (∀ s s1, update_sensors acc s = some s1 → s1.hits = s.hits) ∧
    (∃ s1 s2, run acc sched s0 = some s1 ∧ drain acc s1 = some s2 ∧
      s2.eventQueue.events = [] ∧ s2.hits = wrapInt (firings sched) ∧
      (firings sched < 2147483648 → s2.hits = firings sched)) ∧
    (3 ≤ env.queue_capacity →
      ∃ s1 s2, run acc [.collision_fall, .collision_fall, .collision_fall] s0 = some s1 ∧
        s1.hits = 0 ∧
        s1.eventQueue.events =
          [⟨0, .hit_collision⟩, ⟨1, .hit_collision⟩, ⟨2, .hit_collision⟩] ∧
        drain acc s1 = some s2 ∧ s2.eventQueue.events = [] ∧ s2.hits = 3) := by
  obtain ⟨hb, hcap⟩ := main_booted env s0 hm
  refine ⟨hb.2.1, fun s => rfl, ?_, fun s s1 h => (update_sensors_hits acc s s1 h).1, ?_, ?_⟩
  · intro s hlo hhi
    simp only [hit_collision, wrapInt]
    simp only [INT_MIN, INT_MAX] at hlo hhi
    omega
  · obtain ⟨s1, s2, h1, h2, h3, h4⟩ := counter_drained acc s0 hb sched hnf
    exact ⟨s1, s2, h1, h2, h3, h4, fun hlt => by rw [h4, wrapInt_of_lt _ hlt]⟩
  · intro h3
    obtain ⟨s1, hs1, hh1, he1, hnf1⟩ := three_edges acc s0 hb (by rw [hcap]; exact h3)
    obtain ⟨s1a, s2, h1, h2, h3a, h4⟩ := counter_drained acc s0 hb _ hnf1
    rw [hs1] at h1
    simp only [Option.some.injEq] at h1
    subst h1
    refine ⟨s1, s2, hs1, hh1, he1, h2, h3a, ?_⟩
    rw [h4]
    have : firings [.collision_fall, .collision_fall, .collision_fall] = 3 := by decide
    rw [this]
    unfold wrapInt
    omega

/-- Witness for C1: three falling edges after `main demoEnv` entered the
dispatcher. -/
theorem hits_counts_firings_witness :
    ∃ s1 s2, run demoAcc [.collision_fall, .collision_fall, .collision_fall] demoState = some s1 ∧
      s1.hits = 0 ∧
      s1.eventQueue.events =
        [⟨0, .hit_collision⟩, ⟨1, .hit_collision⟩, ⟨2, .hit_collision⟩] ∧
      drain demoAcc s1 = some s2 ∧ s2.eventQueue.events = [] ∧ s2.hits = 3 :=
  (hits_counts_firings demoEnv demoState demoAcc
    [.collision_fall, .collision_fall, .collision_fall] (by decide) (by decide)).2.2.2.2.2
    (by decide)

/-- Counterexample to C1 as stated: 2^31 falling edges, each dispatched before
the next arrives, so the queue never holds more than one event. Afterwards the
queue is drained, the number of firings is 2147483648, and `hits` is
-2147483648. -/
theorem hits_differs_from_firings_after_overflow :
    neverFull demoAcc (burst 2147483648) demoState = true ∧
    firings (burst 2147483648) = 2147483648 ∧
    ((run demoAcc (burst 2147483648) demoState).bind (drain demoAcc)).map State.hits =
      some (-2147483648) := by
  have hb := (main_booted demoEnv demoState demo_boot).1
  have hcap : 0 < demoState.eventQueue.capacity := by decide
  have h0 : demoState.hits = wrapInt demoState.hits := by
    rw [hb.2.1]
    unfold wrapInt
    omega
  obtain ⟨s1, hs1, -, he1, -, hh1, -, hnf1, hf1⟩ :=
    burst_spec demoAcc 2147483648 demoState hb.1 hb.2.2.2.1 hcap h0
  refine ⟨hnf1, hf1, ?_⟩
  rw [hs1]
  simp only [Option.some_bind, drain, he1, List.length_nil, List.replicate_zero, run,
    Option.map_some', Option.some.injEq]
  rw [hh1, hb.2.1]
  unfold wrapInt
  norm_num

theorem update_sensors_publishes_hits (acc : Nat → Tilt) (s s1 : State)
    (h : update_sensors acc s = some s1) : s1.collision_count = some (.int s1.hits) := by
  obtain ⟨hits, led, b, l, p, x, y, z, q, pu, cf, tm, reg, reads, log⟩ := s
  cases x <;> cases y <;> cases z <;> cases b <;>
    simp [update_sensors, read_Tilt, runStmts, update_sensors_body, State.set_value,
      State.res, State.setRes, State.printf, State.emit, Resource.set_value] at h
  subst h
  rfl

theorem hitCount_uptoLastSample_le (l : List Event) :
    hitCount (uptoLastSample l) ≤ hitCount l := by
  unfold hitCount uptoLastSample
  exact (List.rdropWhile_prefix _ l).sublist.countP_le _

theorem uptoLastSample_of_no_sample (l : List Event) (h : ∀ e ∈ l, e.task ≠ .update_sensors) :
    uptoLastSample l = [] := by
  unfold uptoLastSample
  rw [List.rdropWhile_eq_nil_iff]
  intro e he
  simpa using h e he

/-- C10, as the code has it: the published collision count is a snapshot
taken by the sampler. `hits` is the number of `hit_collision` events executed
so far (reduced to the range of `int`); the `collision_count` resource holds
the value `hits` had at the last executed `update_sensors` event, 0 when there
was none; right after an `update_sensors` event it equals `hits`;
`hit_collision` never changes it; and it is at most `hits` as long as fewer
than 2^31 `hit_collision` events have been executed. -/
theorem collision_count_is_snapshot (env : Env) (s0 : State) (acc : Nat → Tilt)
    (sched : List Input) (s : State) (hm : main env = some (.dispatching s0))
    (hr : run acc sched s0 = some s) :
    s.hits = wrapInt (hitCount (dispatched acc sched s0)) ∧
    s.collision_count =
      some (.int (wrapInt (hitCount (uptoLastSample (dispatched acc sched s0))))) ∧
    ((∀ e ∈ dispatched acc sched s0, e.task ≠ .update_sensors) →
      s.collision_count = some (.int 0)) ∧
    (∀ s1 s2, update_sensors acc s1 = some s2 →
      s2.collision_count = some (.int s2.hits) ∧ s2.hits = s1.hits) ∧
    (∀ s1, (hit_collision s1).collision_count = s1.collision_count) ∧
    (hitCount (dispatched acc sched s0) < 2147483648 →
      ∃ c, s.collision_count = some (.int c) ∧ c ≤ s.hits ∧
        c = hitCount (uptoLastSample (dispatched acc sched s0)) ∧
        s.hits = hitCount (dispatched acc sched s0)) := by
  obtain ⟨s1, hs1, -, hh, hc⟩ := counter_invariant acc s0 (main_booted env s0 hm).1 sched
  rw [hr] at hs1
  simp only [Option.some.injEq] at hs1
  subst hs1
  refine ⟨hh, hc, ?_, ?_, fun s1 => rfl, ?_⟩
  · intro hno
    rw [hc, uptoLastSample_of_no_sample _ hno]
    have h0 : wrapInt 0 = 0 := by unfold wrapInt; omega
    simp [hitCount, h0]
  · intro s1 s2 h
    exact ⟨update_sensors_publishes_hits acc s1 s2 h, (update_sensors_hits acc s1 s2 h).1⟩
  · intro hlt
    have hle := hitCount_uptoLastSample_le (dispatched acc sched s0)
    have h1 := wrapInt_of_lt _ hlt
    have h2 := wrapInt_of_lt (hitCount (uptoLastSample (dispatched acc sched s0))) (by omega)
    refine ⟨_, hc, ?_, h2, ?_⟩
    · rw [hh, h1, h2]
      exact_mod_cast hle
    · rw [hh, h1]

/-- Witness for C10: two hits, a sample, one more hit; the resource holds 2
and `hits` is 3. -/
theorem collision_count_is_snapshot_witness :
    demoFinal.hits = wrapInt (hitCount (dispatched demoAcc demoSchedule demoState)) ∧
    demoFinal.collision_count =
      some (.int (wrapInt (hitCount (uptoLastSample
        (dispatched demoAcc demoSchedule demoState))))) ∧
    demoFinal.hits = 3 ∧ demoFinal.collision_count = some (.int 2) :=
  ⟨(collision_count_is_snapshot demoEnv demoState demoAcc demoSchedule demoFinal
      (by decide) (by decide)).1,
   (collision_count_is_snapshot demoEnv demoState demoAcc demoSchedule demoFinal
      (by decide) (by decide)).2.1,
   by decide, by decide⟩

/-- Counterexample to C10 as stated: after 2^31 - 1 hits the sampler
publishes 2147483647; one more hit takes `hits` to -2147483648, below the
published value. -/
theorem collision_count_exceeds_hits_after_overflow :
    (run demoAcc overflowSchedule demoState).map (fun s => (s.collision_count, s.hits)) =
      some (some (.int 2147483647), -2147483648) := by
  have hb := (main_booted demoEnv demoState demo_boot).1
  have hcap : 0 < demoState.eventQueue.capacity := by decide
  have h0 : demoState.hits = wrapInt demoState.hits := by
    rw [hb.2.1]
    unfold wrapInt
    omega
  obtain ⟨sA, hsA, hwA, heA, hcA, hhA, -, -, -⟩ :=
    burst_spec demoAcc 2147483647 demoState hb.1 hb.2.2.2.1 hcap h0
  have hhA1 : sA.hits = 2147483647 := by
    rw [hhA, hb.2.1]
    unfold wrapInt
    norm_num
  have ht : step demoAcc .timer_tick sA =
      some { sA with eventQueue := sA.eventQueue.post .update_sensors } := by
    simp [step, invokeSlot, invoke, hwA.2.1, Fn0.task]
  have hcapA : 0 < sA.eventQueue.capacity := by rw [hcA]; exact hcap
  have hq : (sA.eventQueue.post .update_sensors).events =
      [⟨sA.eventQueue.next_seq, .update_sensors⟩] := by
    simp [EventQueue.post, heA, hcapA]
  have hqc : (sA.eventQueue.post .update_sensors).capacity = sA.eventQueue.capacity := by
    simp [EventQueue.post, heA, hcapA]
  obtain ⟨sB, hsB, hwB, hhB, -, hqB, -, hcB, -⟩ := update_sensors_spec demoAcc
    (State.popped { sA with eventQueue := sA.eventQueue.post .update_sensors } []) hwA
  have hd : step demoAcc .dispatch { sA with eventQueue := sA.eventQueue.post .update_sensors } =
      some sB := by
    simp [step, hq, Task.run, hsB]
  have hhB1 : sB.hits = 2147483647 := by rw [hhB]; exact hhA1
  obtain ⟨sC, hsC, -, -, -, hhC, hcC, -, -⟩ := burst_spec demoAcc 1 sB hwB
    (by rw [hqB]; rfl) (by rw [hqB]; simpa [State.popped, hqc] using hcapA)
    (by rw [hhB1]; unfold wrapInt; omega)
  have hrun : run demoAcc overflowSchedule demoState = some sC := by
    unfold overflowSchedule
    rw [run_append, run_append, hsA]
    simp only [Option.some_bind, run, ht, hd]
    exact hsC
  rw [hrun]
  simp only [Option.map_some', Option.some.injEq, Prod.mk.injEq]
  refine ⟨?_, ?_⟩
  · rw [hcC, hcB]
    simp [State.popped, hhA1]
  · rw [hhC, hhB1]
    unfold wrapInt
    norm_num

/-! ## The accelerometer triple (C8) -/

theorem coherent_invariant (acc : Nat → Tilt) (s0 : State) (hb : Booted s0)
    (sched : List Input) :
    ∃ s, run acc sched s0 = some s ∧ Wired s ∧ Coherent acc s := by
  apply reach_induction acc s0 (fun _ s => Coherent acc s) hb.1
  · exact Or.inl hb.2.2.2.2.2.2.2
  · intro sched s i s1 _ hw hc hs
    rcases step_counter acc i s s1 hw hs with ⟨-, -, -, ha, hr⟩ | ⟨e, -, -, -, -, ha, hr⟩ |
      ⟨e, -, -, -, -, ha, hr⟩ | ⟨e, -, -, -, -, -, ha, hr⟩
    · unfold Coherent at hc ⊢
      rw [ha, hr]
      exact hc
    · unfold Coherent at hc ⊢
      rw [ha, hr]
      exact hc
    · exact Or.inr ⟨s.reads, by omega, ha⟩
    · unfold Coherent at hc ⊢
      rw [ha, hr]
      exact hc

/-- C8: while the dispatcher runs, the ticker has period 3.0 s and its
handler is the queue-wrapped `update_sensors`, so every tick makes exactly one
post, of one `update_sensors` event; when the dispatcher executes that event
it reads the sensor once and leaves the three values of that single read in
`accelerometer_x`, `accelerometer_y`, `accelerometer_z`; and in every state
the program is in between two reactions, which is where the resources can be
looked at, the three resources hold the values of one and the same read, or
all three still hold the initial 0: no partial triple is seen. -/
theorem accelerometer_triple_coherent_between_events (env : Env) (s0 : State)
    (acc : Nat → Tilt) (sched : List Input) (s : State)
    (hm : main env = some (.dispatching s0)) (hr : run acc sched s0 = some s) :
    s.timer = some (.event .update_sensors, 3000000) ∧
    step acc .timer_tick s = some { s with eventQueue := s.eventQueue.post .update_sensors } ∧
    (s.eventQueue.events.length < s.eventQueue.capacity →
      (s.eventQueue.post .update_sensors).events =
        s.eventQueue.events ++ [⟨s.eventQueue.next_seq, .update_sensors⟩]) ∧
    (∃ s1, update_sensors acc s = some s1 ∧ s1.reads = s.reads + 1 ∧
      s1.log.count .read_Tilt = s.log.count .read_Tilt + 1 ∧
      s1.accelerometer = (some (.float (acc s.reads).x), some (.float (acc s.reads).y),
        some (.float (acc s.reads).z))) ∧
    Coherent acc s ∧
    (∀ e rest, s.eventQueue.events = e :: rest → e.task = .update_sensors →
      ∃ s1, step acc .dispatch s = some s1 ∧ s1.reads = s.reads + 1 ∧
        s1.log.count .read_Tilt = s.log.count .read_Tilt + 1 ∧
        s1.accelerometer = (some (.float (acc s.reads).x), some (.float (acc s.reads).y),
          some (.float (acc s.reads).z)) ∧
        Coherent acc s1) ∧
    (∀ i s1, step acc i s = some s1 → Coherent acc s1) := by
  have hb := (main_booted env s0 hm).1
  have hw := reachable_wired env s0 acc sched s hm hr
  obtain ⟨s1, hs1, -, hc⟩ := coherent_invariant acc s0 hb sched
  rw [hr] at hs1
  simp only [Option.some.injEq] at hs1
  subst hs1
  obtain ⟨s2, hs2, -, -, -, -, hreads, -, hacc, hlog⟩ := update_sensors_spec acc s hw
  have hnext : ∀ i s1, step acc i s = some s1 → Coherent acc s1 := by
    intro i s1 hs
    obtain ⟨s3, hs3, -, hc3⟩ := coherent_invariant acc s0 hb (sched ++ [i])
    rw [run_snoc acc sched i s0 s hr, hs] at hs3
    simp only [Option.some.injEq] at hs3
    rw [hs3]
    exact hc3
  refine ⟨hw.2.1, by simp [step, invokeSlot, invoke, hw.2.1, Fn0.task], ?_,
    ⟨s2, hs2, hreads, ?_, hacc⟩, hc, ?_, hnext⟩
  · intro hlt
    simp [EventQueue.post, hlt]
  · rw [hlog, List.count_append]
    simp
  · intro e rest hq ht
    obtain ⟨s3, hs3, -, -, -, -, hreads3, -, hacc3, hlog3⟩ :=
      update_sensors_spec acc (s.popped rest) hw
    have hstep : step acc .dispatch s = some s3 := by
      simp [step, hq, ht, Task.run, hs3]
    refine ⟨s3, hstep, hreads3, ?_, hacc3, hnext _ _ hstep⟩
    rw [hlog3, List.count_append]
    simp [State.popped]

/-- Witness for C8 at the state `demoState` is in after `demoSchedule`. -/
theorem accelerometer_triple_coherent_between_events_witness :
    Coherent demoAcc demoFinal ∧
    demoFinal.accelerometer = (some (.float ⟨1⟩), some (.float ⟨2⟩), some (.float ⟨3⟩)) :=
  ⟨(accelerometer_triple_coherent_between_events demoEnv demoState demoAcc demoSchedule
      demoFinal (by decide) (by decide)).2.2.2.2.1,
   by decide⟩

/-! ## PUT and POST handlers and the dispatcher (C9) -/

theorem Quiet.resources {s s1 : State} (h : Quiet s s1) (id : ResId) : s1.res id = s.res id := by
  unfold Quiet at h
  rw [h]
  cases id <;> rfl

theorem post_callback_led (buffer : List Nat) (s : State) : (post_callback buffer s).led = s.led := by
  have h : ∀ (l : List Nat) (t : State),
      (l.foldl (fun s b => s.printf (.post_byte b)) t).led = t.led := by
    intro l
    induction l with
    | nil => intro t; rfl
    | cons b bs ih => intro t; simp only [List.foldl_cons]; rw [ih]; rfl
  show (State.printf (buffer.foldl (fun s b => s.printf (.post_byte b))
    (s.printf (.post_received buffer.length))) .post_newline).led = s.led
  exact h buffer _

/-- C9, as the code has it: `put_callback` and `post_callback` are attached
as plain functions, so a PUT or POST runs them at once in the context of the
client that delivers the request, not as events of `eventQueue`: the queue is
left as it is and the dispatcher executes nothing. They write none of the
state `hit_collision` and `update_sensors` write: `hits`, the six resources
(so `collision_count` and the accelerometer values) and the queue are left
untouched; `put_callback` writes the LED and the console, `post_callback` the
console only. -/
theorem put_post_callbacks_run_directly (env : Env) (s0 : State) (acc : Nat → Tilt)
    (sched : List Input) (s : State) (hm : main env = some (.dispatching s0))
    (hr : run acc sched s0 = some s) :
    s.led_res.bind Resource.putCallback = some (.direct .put_callback) ∧
    s.post_res.bind Resource.postCallback = some (.direct .post_callback) ∧
    s.collision_fall = some (.event .hit_collision) ∧
    s.timer.map Prod.fst = some (.event .update_sensors) ∧
    (∀ v, step acc (.put v) s = some (put_callback v s) ∧ executes (.put v) s = []) ∧
    (∀ b, step acc (.post b) s = some (post_callback b s) ∧ executes (.post b) s = []) ∧
    (∀ v s1, (put_callback v s1).hits = s1.hits ∧
      (put_callback v s1).eventQueue = s1.eventQueue ∧
      (∀ id, (put_callback v s1).res id = s1.res id) ∧
      (put_callback v s1).collision_count = s1.collision_count ∧
      (put_callback v s1).accelerometer = s1.accelerometer) ∧
    (∀ b s1, (post_callback b s1).hits = s1.hits ∧
      (post_callback b s1).eventQueue = s1.eventQueue ∧
      (∀ id, (post_callback b s1).res id = s1.res id) ∧
      (post_callback b s1).collision_count = s1.collision_count ∧
      (post_callback b s1).accelerometer = s1.accelerometer ∧
      (post_callback b s1).led = s1.led) := by
  have hw := reachable_wired env s0 acc sched s hm hr
  refine ⟨hw.2.2.2.2.1, hw.2.2.2.2.2.1, hw.1, by simp [hw.2.1], ?_, ?_, ?_, ?_⟩
  · intro v
    exact ⟨by simp [step, invokeSlot, invoke, hw.2.2.2.2.1, Task.run], rfl⟩
  · intro b
    exact ⟨by simp [step, invokeSlot, invoke, hw.2.2.2.2.2.1, Task.run], rfl⟩
  · intro v s1
    have hq := quiet_put_callback v s1
    exact ⟨hq.hits, hq.queue, hq.resources, hq.values.1, hq.values.2.1⟩
  · intro b s1
    have hq := quiet_post_callback b s1
    exact ⟨hq.hits, hq.queue, hq.resources, hq.values.1, hq.values.2.1, post_callback_led b s1⟩

/-- Witness for C9: a PUT of "1" while a `hit_collision` event is waiting. -/
theorem put_post_callbacks_run_directly_witness :
    step demoAcc (.put "1") demoAfterEdge = some (put_callback "1" demoAfterEdge) ∧
      executes (.put "1") demoAfterEdge = [] :=
  (put_post_callbacks_run_directly demoEnv demoState demoAcc [.collision_fall] demoAfterEdge
    (by decide) (by decide)).2.2.2.2.1 "1"

/-- Counterexample to C9 as stated: with a `hit_collision` event waiting in
the queue, a PUT of "1" switches the LED on at once; the queue still holds the
waiting event and nothing more, and the dispatcher has executed no event, so
`put_callback` did not run as an event of the dispatcher. -/
theorem put_callback_runs_outside_the_dispatcher :
    demoAfterEdge.led = 0 ∧
    demoAfterEdge.eventQueue.events = [⟨0, .hit_collision⟩] ∧
    demoAfterEdge.led_res.bind Resource.putCallback = some (.direct .put_callback) ∧
    (step demoAcc (.put "1") demoAfterEdge).map (fun s => (s.led, s.eventQueue.events)) =
      some (1, [⟨0, .hit_collision⟩]) ∧
    dispatched demoAcc [.put "1"] demoAfterEdge = [] := by
  decide

/-- Witness for C7 at the state `demoState` is in after `demoSchedule`. -/
theorem dispatch_is_fifo_witness :
    List.Pairwise (fun a b : Event => a.seq < b.seq)
      (dispatched demoAcc demoSchedule demoState ++ demoFinal.eventQueue.events) ∧
    (dispatched demoAcc demoSchedule demoState).map Event.seq = [0, 1, 2, 3] :=
  ⟨(dispatch_is_fifo demoEnv demoState demoAcc demoSchedule demoFinal
      (by decide) (by decide)).1,
   by decide⟩

/-- Witness for C3: the sample environment with a failing client. -/
theorem main_exit_paths_witness :
    ∃ s, main demoEnvInitFails = some (.returned (-1) s) ∧ (∀ id, s.res id = none) ∧
      Effect.dispatch_forever ∉ s.log := by
  obtain ⟨s, h1, h2, -, -, -, -, -, -, -, -, -, h3⟩ :=
    (main_exit_paths demoEnvInitFails).1 (by decide) (by decide)
  exact ⟨s, h1, h2, h3⟩

/-- Witness for C4: one failed `connect()` followed by a success. -/
theorem connect_retried_until_success_witness :
    ∃ out, main demoEnv = some out ∧
      connectCalls out.state.log = [-3004] ++ [NSAPI_ERROR_OK] ∧
      (connectCalls out.state.log).length = 1 + 1 := by
  obtain ⟨out, h1, h2, h3, -⟩ :=
    (connect_retried_until_success demoEnv).1 [-3004] [] (by decide) (by decide)
  exact ⟨out, h1, h2, h3⟩

/-- Witness for C5: the sample environment formats the storage, and there
the button was pressed. -/
theorem format_only_on_button_witness :
    demoEnv.USE_BUTTON = 1 ∧ demoEnv.button_read = demoEnv.MBED_CONF_APP_BUTTON_PRESSED_STATE :=
  (format_only_on_button demoEnv).1 (.dispatching demoState) (by decide) (by decide)

end Pelion
